import Mathlib

/-!
Verification of the histdem CSV-to-TEI converter (`convert_csv_to_tei.py`)
and the CSV data auditor (`validate_csv_data.py`).

Shallow embedding: Python strings are modelled as lists of characters
(`Str`), Python dicts of strings as insertion-ordered association lists,
the ElementTree XML node type as an inductive tree (`XElem`), the global
`conversion_warnings` list as an explicitly returned warning list, and the
filesystem (used only by the auditor rule `validate_files_exist`) as a
predicate on path strings.  Fallible operations (`int(...)`, row indexing)
return `Option`.  Apostrophes inside message literals are written with the
`\x27` escape; they denote the same character as in the Python source.
-/

namespace Histdem

/-- Python strings, modelled as lists of characters. -/
abbrev Str := List Char

/-- Conversion from a Lean string literal to the model type. -/
def str (s : String) : Str := s.data

/-- Python `str.strip()`: remove leading and trailing whitespace. -/
def pyStrip (s : Str) : Str :=
  ((s.dropWhile Char.isWhitespace).reverse.dropWhile Char.isWhitespace).reverse

/-- Python truthiness of a string: nonempty. -/
def pyTruthy (s : Str) : Bool := !s.isEmpty

/-- Split a string at the first occurrence of `sep`, returning the parts
before and after it; `none` when `sep` does not occur.  This models both
Python `s.split(sep, 1)` (which returns `[s]` exactly when the result here
is `none`) and the Python substring test `sep in s`. -/
def splitOnce (sep : Str) : Str → Option (Str × Str)
  | [] => if sep = [] then some ([], []) else none
  | c :: cs =>
    if sep.isPrefixOf (c :: cs) then some ([], (c :: cs).drop sep.length)
    else (splitOnce sep cs).map (fun p => (c :: p.1, p.2))

/-- `sep` occurs as a substring (Python `sep in s`). -/
def hasSub (sep s : Str) : Bool := (splitOnce sep s).isSome

theorem splitOnce_append (sep : Str) :
    ∀ s l r, splitOnce sep s = some (l, r) → s = l ++ sep ++ r := by
  intro s
  induction s with
  | nil =>
    intro l r h
    by_cases hsep : sep = ([] : Str)
    · simp [splitOnce, hsep] at h
      simp [hsep, h.1, h.2]
    · simp [splitOnce, hsep] at h
  | cons c cs ih =>
    intro l r h
    by_cases hp : sep.isPrefixOf (c :: cs)
    · rw [splitOnce, if_pos hp] at h
      obtain ⟨t, ht⟩ := List.isPrefixOf_iff_prefix.mp hp
      have h2 := Option.some.inj h
      injection h2 with hl hr
      subst hl
      rw [← hr, ← ht, List.drop_left]
      simp [← ht]
    · rw [splitOnce, if_neg hp] at h
      cases hs : splitOnce sep cs with
      | none => rw [hs] at h; simp at h
      | some p =>
        rw [hs] at h
        simp only [Option.map_some'] at h
        have h2 := Option.some.inj h
        injection h2 with hl hr
        have := ih p.1 p.2 (by rw [hs])
        subst hr
        rw [← hl, this]
        simp

theorem splitOnce_min (sep : Str) (hsep : sep ≠ []) :
    ∀ s l r, splitOnce sep s = some (l, r) →
      ∀ a b, s = a ++ sep ++ b → l.length ≤ a.length := by
  intro s
  induction s with
  | nil =>
    intro l r h
    simp [splitOnce, hsep] at h
  | cons c cs ih =>
    intro l r h a b hab
    by_cases hp : sep.isPrefixOf (c :: cs)
    · rw [splitOnce, if_pos hp] at h
      have h2 := Option.some.inj h
      injection h2 with hl hr
      rw [← hl]
      exact Nat.zero_le _
    · rw [splitOnce, if_neg hp] at h
      cases hs : splitOnce sep cs with
      | none => rw [hs] at h; simp at h
      | some p =>
        rw [hs] at h
        simp only [Option.map_some'] at h
        have h2 := Option.some.inj h
        injection h2 with hl hr
        cases a with
        | nil =>
          exfalso
          apply hp
          apply List.isPrefixOf_iff_prefix.mpr
          refine ⟨b, ?_⟩
          simpa using hab.symm
        | cons x a2 =>
          have hx : cs = a2 ++ sep ++ b := by
            have h3 : c :: cs = x :: (a2 ++ sep ++ b) := by simpa using hab
            injection h3 with _ h4
          have := ih p.1 p.2 (by rw [hs]) a2 b hx
          rw [← hl]
          simpa using Nat.succ_le_succ this

theorem splitOnce_none_iff (sep : Str) (hsep : sep ≠ []) :
    ∀ s, splitOnce sep s = none ↔ ∀ a b, s ≠ a ++ sep ++ b := by
  intro s
  induction s with
  | nil =>
    rw [splitOnce, if_neg hsep]
    constructor
    · intro _ a b hab
      have hlen : ([] : Str).length = (a ++ sep ++ b).length := by rw [hab]
      simp at hlen
      exact hsep (List.eq_nil_of_length_eq_zero (by omega))
    · intro _
      rfl
  | cons c cs ih =>
    by_cases hp : sep.isPrefixOf (c :: cs)
    · rw [splitOnce, if_pos hp]
      refine iff_of_false (by simp) ?_
      intro h
      obtain ⟨t, ht⟩ := List.isPrefixOf_iff_prefix.mp hp
      exact h [] t (by simp [ht])
    · rw [splitOnce, if_neg hp]
      constructor
      · intro h a b hab
        cases a with
        | nil =>
          apply hp
          apply List.isPrefixOf_iff_prefix.mpr
          exact ⟨b, by simpa using hab.symm⟩
        | cons x a2 =>
          have hx : cs = a2 ++ sep ++ b := by
            have h3 : c :: cs = x :: (a2 ++ sep ++ b) := by simpa using hab
            injection h3 with _ h4
          have hnone : splitOnce sep cs = none := by
            cases hs : splitOnce sep cs with
            | none => rfl
            | some p => rw [hs] at h; simp at h
          exact (ih.mp hnone) a2 b hx
      · intro h
        cases hs : splitOnce sep cs with
        | none => simp
        | some p =>
          exfalso
          have := splitOnce_append sep cs p.1 p.2 (by rw [hs])
          exact h (c :: p.1) p.2 (by simp [this])

/-- `(l, r)` is the decomposition of `s` at the FIRST occurrence of `sep`. -/
def IsFirstSplit (sep s l r : Str) : Prop :=
  s = l ++ sep ++ r ∧ ∀ a b, s = a ++ sep ++ b → l.length ≤ a.length

theorem splitOnce_iff_first (sep : Str) (hsep : sep ≠ []) (s l r : Str) :
    splitOnce sep s = some (l, r) ↔ IsFirstSplit sep s l r := by
  constructor
  · intro h
    exact ⟨splitOnce_append sep s l r h, splitOnce_min sep hsep s l r h⟩
  · rintro ⟨hdec, hmin⟩
    cases hs : splitOnce sep s with
    | none =>
      exact absurd hdec ((splitOnce_none_iff sep hsep s).mp hs l r)
    | some p =>
      have hdec0 := splitOnce_append sep s p.1 p.2 (by rw [hs])
      have h1 : p.1.length ≤ l.length := splitOnce_min sep hsep s p.1 p.2 (by rw [hs]) l r hdec
      have h2 : l.length ≤ p.1.length := hmin p.1 p.2 hdec0
      have hlen : p.1.length = l.length := Nat.le_antisymm h1 h2
      have heq : p.1 ++ (sep ++ p.2) = l ++ (sep ++ r) := by
        rw [← List.append_assoc, ← List.append_assoc, ← hdec0, ← hdec]
      obtain ⟨he1, he2⟩ := List.append_inj heq hlen
      have he3 : p.2 = r := List.append_cancel_left he2
      exact congrArg some (Prod.ext he1 he3)

/-! ### convert_csv_to_tei.parse_file_entry -/

/-- The "missing title" warning string of `parse_file_entry`. -/
def warnMissingTitle (dataset_id field_name e : Str) : Str :=
  str "WARNUNG Dataset " ++ (dataset_id ++ (str ": " ++ (field_name ++
    (str " - Fehlender Titel (Format sollte sein: \x27dateiname - Titel\x27). Gefunden: \x27" ++
      (e ++ str "\x27")))))

/-- The "empty filename" error string of `parse_file_entry`. -/
def errEmptyFilename (dataset_id field_name : Str) : Str :=
  str "FEHLER Dataset " ++ (dataset_id ++ (str ": " ++ (field_name ++
    str " - Leerer Dateiname vor \x27 - \x27")))

/-- The "empty title" warning string of `parse_file_entry`. -/
def warnEmptyTitle (dataset_id field_name : Str) : Str :=
  str "WARNUNG Dataset " ++ (dataset_id ++ (str ": " ++ (field_name ++
    str " - Leerer Titel nach \x27 - \x27")))

/-- `convert_csv_to_tei.parse_file_entry`: parse a `"filename - title"`
entry into `(filename, title)`, also returning the warnings the Python
function appends to the global `conversion_warnings` list. -/
def parse_file_entry (entry field_name dataset_id : Str) :
    Option Str × Option Str × List Str :=
  if pyStrip entry = [] then (none, none, [])
  else
    let e := pyStrip entry
    match splitOnce (str " - ") e with
    | none => (some e, none, [warnMissingTitle dataset_id field_name e])
    | some (p0, p1) =>
      let filename := pyStrip p0
      let title := pyStrip p1
      if filename = [] then
        (none, none, [errEmptyFilename dataset_id field_name])
      else if title = [] then
        (some filename, none, [warnEmptyTitle dataset_id field_name])
      else (some filename, some title, [])

theorem prefix_extend {p q : Str} (rest : Str) (h : p.isPrefixOf q) :
    p.isPrefixOf (q ++ rest) := by
  apply List.isPrefixOf_iff_prefix.mpr
  exact (List.isPrefixOf_iff_prefix.mp h).trans (List.prefix_append q rest)

theorem warnMissingTitle_isWarning (d f e : Str) :
    (str "WARNUNG").isPrefixOf (warnMissingTitle d f e) :=
  prefix_extend _ (by decide)

theorem errEmptyFilename_isError (d f : Str) :
    (str "FEHLER").isPrefixOf (errEmptyFilename d f) :=
  prefix_extend _ (by decide)

theorem warnEmptyTitle_isWarning (d f : Str) :
    (str "WARNUNG").isPrefixOf (warnEmptyTitle d f) :=
  prefix_extend _ (by decide)

/-- C1: `parse_file_entry` implements the Field-Entry grammar: empty or
whitespace-only input yields `(none, none)` with no warning; input whose
trimmed form has no `" - "` substring yields the trimmed input with no
title plus exactly one WARNING; otherwise the trimmed input is split at
the first `" - "` occurrence only (`IsFirstSplit` picks the leftmost
occurrence), an empty (stripped) left side yields `(none, none)` plus one
FEHLER (error) warning, an empty (stripped) right side yields the filename
without title plus one WARNING, and in the remaining case the stripped
filename and stripped title are returned with no warning. -/
theorem C1_parse_file_entry_grammar (entry field_name dataset_id : Str) :
    (pyStrip entry = [] →
      parse_file_entry entry field_name dataset_id = (none, none, [])) ∧
    (pyStrip entry ≠ [] → (∀ a b, pyStrip entry ≠ a ++ str " - " ++ b) →
      ∃ w, parse_file_entry entry field_name dataset_id =
          (some (pyStrip entry), none, [w]) ∧
        (str "WARNUNG").isPrefixOf w) ∧
    ((∃ a b, pyStrip entry = a ++ str " - " ++ b) →
      ∃ l r, IsFirstSplit (str " - ") (pyStrip entry) l r) ∧
    (∀ l r, pyStrip entry ≠ [] →
      IsFirstSplit (str " - ") (pyStrip entry) l r →
      ((pyStrip l = [] →
          ∃ w, parse_file_entry entry field_name dataset_id = (none, none, [w]) ∧
            (str "FEHLER").isPrefixOf w) ∧
       (pyStrip l ≠ [] → pyStrip r = [] →
          ∃ w, parse_file_entry entry field_name dataset_id =
              (some (pyStrip l), none, [w]) ∧
            (str "WARNUNG").isPrefixOf w) ∧
       (pyStrip l ≠ [] → pyStrip r ≠ [] →
          parse_file_entry entry field_name dataset_id =
            (some (pyStrip l), some (pyStrip r), [])))) := by
  have hsep : str " - " ≠ ([] : Str) := by decide
  refine ⟨?_, ?_, ?_, ?_⟩
  · intro h
    simp [parse_file_entry, h]
  · intro hne hnosub
    have hnone : splitOnce (str " - ") (pyStrip entry) = none :=
      (splitOnce_none_iff (str " - ") hsep (pyStrip entry)).mpr hnosub
    refine ⟨warnMissingTitle dataset_id field_name (pyStrip entry), ?_,
      warnMissingTitle_isWarning _ _ _⟩
    simp [parse_file_entry, hne, hnone]
  · rintro ⟨a, b, hab⟩
    cases hs : splitOnce (str " - ") (pyStrip entry) with
    | none =>
      exact absurd hab ((splitOnce_none_iff (str " - ") hsep _).mp hs a b)
    | some p =>
      exact ⟨p.1, p.2, (splitOnce_iff_first (str " - ") hsep _ p.1 p.2).mp (by rw [hs])⟩
  · intro l r hne hfirst
    have hs : splitOnce (str " - ") (pyStrip entry) = some (l, r) :=
      (splitOnce_iff_first (str " - ") hsep _ l r).mpr hfirst
    refine ⟨?_, ?_, ?_⟩
    · intro hfn
      refine ⟨errEmptyFilename dataset_id field_name, ?_,
        errEmptyFilename_isError _ _⟩
      simp [parse_file_entry, hne, hs, hfn]
    · intro hfn hti
      refine ⟨warnEmptyTitle dataset_id field_name, ?_,
        warnEmptyTitle_isWarning _ _⟩
      simp [parse_file_entry, hne, hs, hfn, hti]
    · intro hfn hti
      simp [parse_file_entry, hne, hs, hfn, hti]

/-- Witness for C1 at a concrete well-formed entry. -/
theorem C1_witness :
    parse_file_entry (str " a.csv - Title A ") (str "CSV Codes") (str "147") =
      (some (str "a.csv"), some (str "Title A"), []) := by
  have h := C1_parse_file_entry_grammar (str " a.csv - Title A ") (str "CSV Codes") (str "147")
  have hfirst : IsFirstSplit (str " - ") (pyStrip (str " a.csv - Title A "))
      (str "a.csv") (str "Title A") := by
    apply (splitOnce_iff_first (str " - ") (by decide) _ _ _).mp
    decide
  have h5 := (h.2.2.2 (str "a.csv") (str "Title A") (by decide) hfirst).2.2
    (by decide) (by decide)
  have e1 : pyStrip (str "a.csv") = str "a.csv" := by decide
  have e2 : pyStrip (str "Title A") = str "Title A" := by decide
  rw [e1, e2] at h5
  exact h5

/-! ### Auditor: validate_csv_data.py -/

/-- `validate_csv_data.validate_file_entry`: validate the file-entry
format, returning `(is_valid, issues)`.  The `field_name` argument is
unused by the Python function's messages and kept for fidelity. -/
def validate_file_entry (entry field_name : Str) : Bool × List Str :=
  if pyStrip entry = [] then (true, [])
  else
    let e := pyStrip entry
    let fnIssues :=
      match splitOnce (str " - ") e with
      | some (p0, p1) =>
        let filename := pyStrip p0
        let title := pyStrip p1
        (filename,
          (if filename = [] then [str "Leerer Dateiname vor \x27 - \x27"] else []) ++
          (if title = [] then [str "Leerer Titel nach \x27 - \x27"] else []))
      | none =>
        (e, [str "Fehlender Titel (Format sollte sein: \x27dateiname - Titel\x27)"])
    let filename := fnIssues.1
    let issues := fnIssues.2 ++
      (if ('.' : Char) ∈ filename then [] else
        [str "Dateiname ohne Erweiterung: \x27" ++ filename ++ str "\x27"]) ++
      (if filename.getLast? = some ' ' then
        [str "Dateiname hat nachfolgendes Leerzeichen"] else []) ++
      (if filename.head? = some ' ' then
        [str "Dateiname hat führendes Leerzeichen"] else [])
    (issues.isEmpty, issues)

/-- The `filename` variable computed inside `validate_file_entry`, as a
function of the stripped entry `e`. -/
def auditorFilename (e : Str) : Str :=
  match splitOnce (str " - ") e with
  | some (p0, _) => pyStrip p0
  | none => e

/-- Python `int(...)` on a string: optional sign, then decimal digits;
`none` models a raised `ValueError`. -/
def pyInt (s : Str) : Option Int :=
  let t := pyStrip s
  let digitsVal : Str → Option Int := fun ds =>
    if ds.isEmpty || !ds.all Char.isDigit then none
    else some (ds.foldl (fun a c => a * 10 + ((c.toNat : Int) - 48)) 0)
  match t with
  | '-' :: ds => (digitsVal ds).map (fun n => -n)
  | '+' :: ds => digitsVal ds
  | ds => digitsVal ds

/-- `validate_csv_data.validate_date_range`. -/
def validate_date_range (year date_from date_to : Str) : Bool × List Str :=
  let issues1 :=
    (if pyTruthy date_from && !pyTruthy date_to then
      [str "Datumsbereich unvollständig: hat \x27Datum Von\x27 (" ++ date_from ++
        str ") aber \x27Datum Bis\x27 fehlt"] else []) ++
    (if pyTruthy date_to && !pyTruthy date_from then
      [str "Datumsbereich unvollständig: hat \x27Datum Bis\x27 (" ++ date_to ++
        str ") aber \x27Datum Von\x27 fehlt"] else [])
  let issues :=
    if pyTruthy date_from && pyTruthy date_to && pyTruthy year then
      match pyInt year, pyInt date_from, pyInt date_to with
      | some year_int, some from_int, some to_int =>
        issues1 ++
          (if from_int ≤ year_int ∧ year_int ≤ to_int then [] else
            [str "Jahr " ++ year ++ str " liegt nicht im Datumsbereich " ++
              date_from ++ str "-" ++ date_to])
      | _, _, _ => issues1
    else issues1
  (issues.isEmpty, issues)

/-- Dataset records: insertion-ordered field-name/value association lists
(the Python per-dataset dicts). -/
abbrev Record := List (Str × Str)

/-- Python `dict.get(k)` as an `Option`. -/
def rget : Record → Str → Option Str
  | [], _ => none
  | (k0, v0) :: rest, k => if k0 = k then some v0 else rget rest k

/-- Python `dict.get(k, default)`. -/
def rgetD (d : Record) (k dflt : Str) : Str := (rget d k).getD dflt

/-- Python `dict[k] = v`: overwrite in place or append. -/
def dictInsert : Record → Str → Str → Record
  | [], k, v => [(k, v)]
  | (k0, v0) :: rest, k, v =>
    if k0 = k then (k0, v) :: rest else (k0, v0) :: dictInsert rest k v

/-- The fixed required-field list of `validate_required_fields`. -/
def required_fields : List Str :=
  [str "Datensatz ID", str "Datensatz Titel", str "Land", str "PID",
   str "Anzahl Personen", str "Anzahl Haushalte", str "Zitierempfehlung",
   str "Schlagwörter", str "Sprachcodes", str "Überschrift", str "Beschreibung"]

/-- `validate_csv_data.validate_required_fields`. -/
def validate_required_fields (dataset : Record) : Bool × List Str :=
  let issues := required_fields.flatMap (fun field =>
    if pyStrip (rgetD dataset field []) = [] then
      [str "Pflichtfeld \x27" ++ field ++ str "\x27 ist leer"]
    else [])
  (issues.isEmpty, issues)

/-- Replace every (non-overlapping, left-to-right) occurrence of `old`
with `new`: Python `s.replace(old, new)`.  Fuel-based recursion; the fuel
`s.length + 1` is sufficient because every step consumes at least one
character of the remainder. -/
def pyReplaceAux (old new : Str) : Nat → Str → Str
  | 0, s => s
  | n + 1, s =>
    match splitOnce old s with
    | none => s
    | some (l, r) => l ++ new ++ pyReplaceAux old new n r

/-- Python `s.replace(old, new)`. -/
def pyReplace (old new s : Str) : Str := pyReplaceAux old new (s.length + 1) s

/-- The filename part of a raw file entry, as extracted at several places
in `validate_csv_data.py`:
`v.split(' - ')[0].strip() if ' - ' in v else v.strip()`. -/
def entryFilename (v : Str) : Str :=
  match splitOnce (str " - ") v with
  | some (p0, _) => pyStrip p0
  | none => pyStrip v

/-- `validate_csv_data.validate_csv_labels_match_codes`. -/
def validate_csv_labels_match_codes (codes_entry labels_entry : Str) :
    Bool × List Str :=
  if !pyTruthy codes_entry || !pyTruthy labels_entry then (true, [])
  else
    let codes_file := entryFilename codes_entry
    let labels_file := entryFilename labels_entry
    let issues :=
      (if (str "_codes.csv").isSuffixOf codes_file then [] else
        [str "Codes-Dateiname endet nicht mit \x27_codes.csv\x27: \x27" ++
          codes_file ++ str "\x27"]) ++
      (if (str "_labels.csv").isSuffixOf labels_file then [] else
        [str "Labels-Dateiname endet nicht mit \x27_labels.csv\x27: \x27" ++
          labels_file ++ str "\x27"])
    let codes_base := pyReplace (str "_codes.csv") [] codes_file
    let labels_base := pyReplace (str "_codes.csv") []
      (pyReplace (str "_labels.csv") [] labels_file)
    let issues := issues ++
      (if codes_base = labels_base then [] else
        [str "Basis-Dateinamen stimmen nicht überein: codes=\x27" ++ codes_base ++
          str "\x27 vs labels=\x27" ++ labels_base ++ str "\x27"])
    (issues.isEmpty, issues)

/-- The fixed `DATASET_FOLDERS` table (identical in both scripts). -/
def DATASET_FOLDERS (id : Str) : Option Str :=
  if id = str "147" then some (str "datafile_147_Serbia_1863")
  else if id = str "21" then some (str "datafile_21_Albania_1918")
  else if id = str "262" then some (str "datafile_262_Montenegro_1879")
  else if id = str "266" then some (str "datafile_266_Armenians_in_Istanbul_1907")
  else if id = str "153" then some (str "datafile_153_Rhodope_mountains_around_1900")
  else if id = str "234" then some (str "datafile_234_Wallachia_1838")
  else if id = str "154" then some (str "datafile_154_Dalmatia_1674")
  else if id = str "164" then some (str "datafile_164_Istanbul_1907")
  else if id = str "165" then some (str "datafile_165_Istanbul_1885")
  else if id = str "152" then some (str "datafile_152_Hungary_1869")
  else none

/-- `validate_csv_data.check_file_exists`, with the filesystem abstracted
as a predicate `fs` on path strings (base path `"."` elided, as
`pathlib.Path` normalizes `./x` to `x`). -/
def check_file_exists (fs : Str → Bool) (filename dataset_id : Str) :
    Bool × Str :=
  if !pyTruthy filename then (true, [])
  else
    match DATASET_FOLDERS dataset_id with
    | none =>
      (false, str "Kein Ordner-Mapping für Dataset " ++ dataset_id ++ str " gefunden")
    | some folder =>
      if !fs folder then
        (false, str "Ordner \x27" ++ folder ++ str "\x27 existiert nicht")
      else
        let file_path := folder ++ str "/" ++ filename
        if !fs file_path then
          (false, str "Datei nicht gefunden: " ++ folder ++ str "/" ++ filename)
        else (true, file_path)

/-- One file-bearing field check of `validate_files_exist`: the issues
contributed by the field labelled `label` holding raw value `v`. -/
def fileCheckIssue (fs : Str → Bool) (dataset_id label v : Str) : List Str :=
  if pyTruthy v then
    let filename := entryFilename v
    if pyTruthy filename then
      let em := check_file_exists fs filename dataset_id
      if em.1 then [] else [label ++ str ": " ++ em.2]
    else []
  else []

/-- Decimal rendering of a number, for the `Zusatzdatei i` / `Bild i`
field names. -/
def natStr (n : Nat) : Str := Nat.toDigits 10 n

/-- The numbered field names `<base>1 .. <base>n`. -/
def numberedKeys (base : Str) (n : Nat) : List Str :=
  (List.range n).map (fun i => base ++ natStr (i + 1))

/-- `validate_csv_data.validate_files_exist`. -/
def validate_files_exist (fs : Str → Bool) (dataset : Record)
    (dataset_id : Str) : Bool × List Str :=
  let issues :=
    fileCheckIssue fs dataset_id (str "CSV Codes")
      (rgetD dataset (str "CSV Codes") []) ++
    fileCheckIssue fs dataset_id (str "CSV Labels")
      (rgetD dataset (str "CSV Labels") []) ++
    (numberedKeys (str "Zusatzdatei ") 10).flatMap (fun key =>
      fileCheckIssue fs dataset_id key (rgetD dataset key [])) ++
    (numberedKeys (str "Bild ") 5).flatMap (fun key =>
      fileCheckIssue fs dataset_id key (rgetD dataset key []))
  (issues.isEmpty, issues)

/-- Python `str.islower()` (ASCII approximation): at least one letter and
no uppercase letter. -/
def pyIsLower (s : Str) : Bool :=
  s.any (fun c => c.isAlpha) && !(s.any (fun c => c.isUpper))

/-- The anchored PID regular expression `^o:histdem\.\d+$`. -/
def pidFormatOk (pid : Str) : Bool :=
  (str "o:histdem.").isPrefixOf pid &&
  (let ds := pid.drop (str "o:histdem.").length
   !ds.isEmpty && ds.all Char.isDigit)

/-- One dataset's issue list, as accumulated by the per-dataset loop body
of `validate_csv_data.main` (rules 1-11, in source order). -/
def auditIssues (fs : Str → Bool) (dataset : Record) : List Str :=
  let dataset_id := rgetD dataset (str "Datensatz ID") (str "Unknown")
  let csv_codes := rgetD dataset (str "CSV Codes") []
  let csv_labels := rgetD dataset (str "CSV Labels") []
  let year := rgetD dataset (str "Jahr") []
  let date_from := rgetD dataset (str "Datum Von") []
  let date_to := rgetD dataset (str "Datum Bis") []
  let pid := rgetD dataset (str "PID") []
  let lang_codes := rgetD dataset (str "Sprachcodes") []
  (validate_required_fields dataset).2 ++
  ((validate_file_entry csv_codes (str "CSV Codes")).2.map
    (fun i => str "CSV Codes: " ++ i)) ++
  ((validate_file_entry csv_labels (str "CSV Labels")).2.map
    (fun i => str "CSV Labels: " ++ i)) ++
  (if pyTruthy csv_codes && pyTruthy csv_labels then
    (validate_csv_labels_match_codes csv_codes csv_labels).2
  else []) ++
  (validate_date_range year date_from date_to).2 ++
  ((numberedKeys (str "Zusatzdatei ") 10).flatMap (fun key =>
    let v := rgetD dataset key []
    if pyTruthy v then
      (validate_file_entry v key).2.map (fun i => key ++ str ": " ++ i)
    else [])) ++
  ((numberedKeys (str "Bild ") 5).flatMap (fun key =>
    let v := rgetD dataset key []
    if pyTruthy v then
      (validate_file_entry v key).2.map (fun i => key ++ str ": " ++ i)
    else [])) ++
  (if pyTruthy pid && !pidFormatOk pid then
    [str "PID-Format inkorrekt: \x27" ++ pid ++ str "\x27 (erwartet: o:histdem.NNN)"]
  else []) ++
  (if pyTruthy pid && pyTruthy dataset_id &&
      pid ≠ str "o:histdem." ++ dataset_id then
    [str "PID \x27" ++ pid ++ str "\x27 stimmt nicht mit Datensatz ID \x27" ++
      dataset_id ++ str "\x27 überein (erwartet: o:histdem." ++ dataset_id ++ str ")"]
  else []) ++
  (if pyTruthy lang_codes then
    (lang_codes.splitOn ',').flatMap (fun c =>
      let code := pyStrip c
      if code.length ≠ 2 || !pyIsLower code then
        [str "Sprachcode \x27" ++ code ++
          str "\x27 scheint nicht im ISO 639-1 Format zu sein"]
      else [])
  else []) ++
  (validate_files_exist fs dataset dataset_id).2

/-- The `(total_issues, datasets_with_issues)` counters accumulated by the
loop in `validate_csv_data.main`. -/
def auditTotals (fs : Str → Bool) (datasets : List Record) : Nat × Nat :=
  datasets.foldl (fun acc d =>
    let n := (auditIssues fs d).length
    (acc.1 + n, if 0 < n then acc.2 + 1 else acc.2)) (0, 0)

/-- The value returned by `validate_csv_data.main` and passed to
`sys.exit`: `0 if total_issues == 0 else 1`. -/
def auditExitCode (fs : Str → Bool) (datasets : List Record) : Nat :=
  if (auditTotals fs datasets).1 = 0 then 0 else 1

/-- C9: the date-range rule flags an issue when exactly one of `Datum
Von`/`Datum Bis` is present; when both are present together with a numeric
`Jahr` it flags an issue iff the year is outside `[from, to]` inclusive;
non-numeric values are skipped without an issue; `Jahr="1900"` with range
1890-1895 yields exactly one issue and empty `Jahr` with the same range
yields none. -/
theorem C9_validate_date_range (year date_from date_to : Str) :
    ((pyTruthy date_from = true ∧ pyTruthy date_to = false) ∨
       (pyTruthy date_from = false ∧ pyTruthy date_to = true) →
      (validate_date_range year date_from date_to).2 ≠ []) ∧
    (pyTruthy date_from = true → pyTruthy date_to = true → pyTruthy year = true →
      ∀ y f t, pyInt year = some y → pyInt date_from = some f → pyInt date_to = some t →
        ((validate_date_range year date_from date_to).2 ≠ [] ↔ ¬(f ≤ y ∧ y ≤ t))) ∧
    (pyTruthy date_from = true → pyTruthy date_to = true → pyTruthy year = true →
      pyInt year = none ∨ pyInt date_from = none ∨ pyInt date_to = none →
      (validate_date_range year date_from date_to).2 = []) ∧
    (pyTruthy date_from = false → pyTruthy date_to = false →
      (validate_date_range year date_from date_to).2 = []) ∧
    (validate_date_range (str "1900") (str "1890") (str "1895")).2.length = 1 ∧
    (validate_date_range [] (str "1890") (str "1895")).2 = [] := by
  refine ⟨?_, ?_, ?_, ?_, by decide, by decide⟩
  · rintro (⟨h1, h2⟩ | ⟨h1, h2⟩) <;> simp [validate_date_range, h1, h2]
  · intro hf ht hy y f t h1 h2 h3
    simp only [validate_date_range, hf, ht, hy, h1, h2, h3]
    by_cases hr : f ≤ y ∧ y ≤ t <;> simp [hr]
  · intro hf ht hy hnone
    rcases hnone with h | h | h
    · rcases h2 : pyInt date_from with _ | f <;>
        rcases h3 : pyInt date_to with _ | t <;>
        simp [validate_date_range, hf, ht, hy, h, h2, h3]
    · rcases h1 : pyInt year with _ | y <;>
        rcases h3 : pyInt date_to with _ | t <;>
        simp [validate_date_range, hf, ht, hy, h, h1, h3]
    · rcases h1 : pyInt year with _ | y <;>
        rcases h2 : pyInt date_from with _ | f <;>
        simp [validate_date_range, hf, ht, hy, h, h1, h2]
  · intro h1 h2
    simp [validate_date_range, h1, h2]

/-- Witness for C9: the out-of-range scenario produces an issue. -/
theorem C9_witness :
    (validate_date_range (str "1900") (str "1890") (str "1895")).2 ≠ [] := by
  have h := (C9_validate_date_range (str "1900") (str "1890") (str "1895")).2.1
    (by decide) (by decide) (by decide) 1900 1890 1895
    (by decide) (by decide) (by decide)
  exact h.mpr (by decide)

/-! ### C2: the auditor's exit status -/

theorem countFold_spec {α : Type} (g : α → Nat) :
    ∀ (ds : List α) (t w : Nat),
      ds.foldl (fun acc d => (acc.1 + g d, if 0 < g d then acc.2 + 1 else acc.2))
          (t, w) =
      (t + (ds.map g).sum,
       w + (ds.filter (fun d => decide (0 < g d))).length) := by
  intro ds
  induction ds with
  | nil => intro t w; simp
  | cons d ds ih =>
    intro t w
    simp only [List.foldl_cons, List.map_cons, List.sum_cons, List.filter_cons]
    rw [ih]
    by_cases h : 0 < g d
    · rw [if_pos h, decide_eq_true h]
      simp only [if_true, List.length_cons, Prod.mk.injEq]
      omega
    · rw [if_neg h, decide_eq_false h]
      simp [Nat.add_assoc]

theorem auditTotals_spec (fs : Str → Bool) (ds : List Record) :
    auditTotals fs ds =
      ((ds.map (fun d => (auditIssues fs d).length)).sum,
       (ds.filter (fun d => decide (0 < (auditIssues fs d).length))).length) := by
  have h := countFold_spec (fun d => (auditIssues fs d).length) ds 0 0
  simp only [Nat.zero_add] at h
  exact h

/-- C2 counterexample: with no files present, two empty records each have
issues (all required fields are empty), so the count of records with at
least one issue is 2, yet the auditor's exit status is 1 — the exit status
is not the count of records with issues, as the claim states. -/
theorem C2_counterexample :
    auditExitCode (fun _ => false) [([] : Record), []] = 1 ∧
    (auditTotals (fun _ => false) [([] : Record), []]).2 = 2 ∧
    auditExitCode (fun _ => false) [([] : Record), []] ≠
      (auditTotals (fun _ => false) [([] : Record), []]).2 := by
  refine ⟨by decide, by decide, by decide⟩

/-- C2 (amended): the auditor's exit status is 0 when no record has an
issue and 1 otherwise (not the count of flagged records); in particular it
is 0 iff zero issues were found across all records, which holds iff zero
records have at least one issue. -/
theorem C2_exit_code (fs : Str → Bool) (datasets : List Record) :
    (auditExitCode fs datasets =
      if (auditTotals fs datasets).2 = 0 then 0 else 1) ∧
    (auditExitCode fs datasets = 0 ↔ (auditTotals fs datasets).1 = 0) ∧
    ((auditTotals fs datasets).1 = 0 ↔ (auditTotals fs datasets).2 = 0) := by
  have htot := auditTotals_spec fs datasets
  have hiff : (auditTotals fs datasets).1 = 0 ↔ (auditTotals fs datasets).2 = 0 := by
    rw [htot]
    simp only [List.sum_eq_zero_iff, List.length_eq_zero, List.filter_eq_nil_iff]
    constructor
    · intro h d hd
      have := h ((auditIssues fs d).length) (List.mem_map_of_mem _ hd)
      simp [this]
    · intro h x hx
      obtain ⟨d, hd, rfl⟩ := List.mem_map.mp hx
      have := h d hd
      simpa using this
  refine ⟨?_, ?_, hiff⟩
  · rw [auditExitCode]
    by_cases h : (auditTotals fs datasets).1 = 0
    · rw [if_pos h, if_pos (hiff.mp h)]
    · rw [if_neg h, if_neg (fun hw => h (hiff.mpr hw))]
  · rw [auditExitCode]
    by_cases h : (auditTotals fs datasets).1 = 0 <;> simp [h]

/-! ### C3: the grammar shared by synthesizer and auditor -/

theorem dropWhile_head_false (p : Char → Bool) :
    ∀ (l : Str) c t, l.dropWhile p = c :: t → p c = false := by
  intro l
  induction l with
  | nil => intro c t h; simp [List.dropWhile] at h
  | cons a as ih =>
    intro c t h
    rw [List.dropWhile_cons] at h
    by_cases hp : p a = true
    · rw [if_pos hp] at h
      exact ih c t h
    · rw [if_neg hp] at h
      injection h with h1 _
      subst h1
      exact Bool.eq_false_iff.mpr hp

theorem getLast?_dropWhile (p : Char → Bool) :
    ∀ (l : Str), l.dropWhile p ≠ [] → (l.dropWhile p).getLast? = l.getLast? := by
  intro l
  induction l with
  | nil => intro h; simp [List.dropWhile] at h
  | cons a as ih =>
    intro h
    rw [List.dropWhile_cons]
    rw [List.dropWhile_cons] at h
    by_cases hp : p a = true
    · rw [if_pos hp] at h ⊢
      rw [ih h]
      cases as with
      | nil => simp [List.dropWhile] at h
      | cons b bs => rw [List.getLast?_cons_cons]
    · rw [if_neg hp]

theorem dropWhile_arg_ne_nil {p : Char → Bool} {l : Str}
    (h : l.dropWhile p ≠ []) : l ≠ [] := by
  intro hl; rw [hl] at h; simp at h

/-- A nonempty stripped string neither starts nor ends with whitespace. -/
theorem pyStrip_boundary (s : Str) (h : pyStrip s ≠ []) :
    (∃ c, (pyStrip s).head? = some c ∧ c.isWhitespace = false) ∧
    (∃ c, (pyStrip s).getLast? = some c ∧ c.isWhitespace = false) := by
  unfold pyStrip at h ⊢
  set A := s.dropWhile Char.isWhitespace with hA
  set B := A.reverse.dropWhile Char.isWhitespace with hB
  have hBne : B ≠ [] := by
    intro hb; rw [hb] at h; simp at h
  constructor
  · -- head of B.reverse = last of B = last of A.reverse = head of A
    rw [List.head?_reverse]
    rw [hB, getLast?_dropWhile _ _ (hB ▸ hBne), List.getLast?_reverse]
    have hAne : A ≠ [] := by
      have := dropWhile_arg_ne_nil (hB ▸ hBne)
      intro ha; rw [ha] at this; simp at this
    cases hAc : A with
    | nil => exact absurd hAc hAne
    | cons c t =>
      refine ⟨c, rfl, ?_⟩
      exact dropWhile_head_false _ s c t (hA ▸ hAc)
  · rw [List.getLast?_reverse]
    cases hBc : B with
    | nil => exact absurd hBc hBne
    | cons c t =>
      refine ⟨c, rfl, ?_⟩
      exact dropWhile_head_false _ A.reverse c t (hB ▸ hBc)

theorem pyStrip_head_ne_space {s : Str} (h : pyStrip s ≠ []) :
    (pyStrip s).head? ≠ some ' ' := by
  obtain ⟨⟨c, hc, hw⟩, _⟩ := pyStrip_boundary s h
  rw [hc]
  intro he
  injection he with he
  subst he
  exact absurd hw (by decide)

theorem pyStrip_getLast_ne_space {s : Str} (h : pyStrip s ≠ []) :
    (pyStrip s).getLast? ≠ some ' ' := by
  obtain ⟨_, ⟨c, hc, hw⟩⟩ := pyStrip_boundary s h
  rw [hc]
  intro he
  injection he with he
  subst he
  exact absurd hw (by decide)

/-- C3 counterexample: for the concrete entry `"readme - Title"` (a
filename without a `.` extension) the synthesizer's `parse_file_entry`
records no warning at all, yet the auditor's `validate_file_entry` reports
an issue — so the two sides do NOT report iff each other, refuting the
claimed equivalence. -/
theorem C3_counterexample :
    (parse_file_entry (str "readme - Title") (str "Bild 1") (str "147")).2.2 = [] ∧
    (validate_file_entry (str "readme - Title") (str "Bild 1")).2 ≠ [] := by
  exact ⟨by decide, by decide⟩

/-- C3 (amended): whenever the synthesizer's `parse_file_entry` records a
warning or error, the auditor's `validate_file_entry` reports at least one
issue; the converse (and hence the claimed equivalence) holds under the
additional condition that the filename the auditor extracts contains a
`.` extension — without it the auditor has a strictly stronger check;
and whenever `parse_file_entry` returns a filename, the auditor extracts
the same filename. -/
theorem C3_grammar_shared (entry field_name dataset_id : Str) :
    ((parse_file_entry entry field_name dataset_id).2.2 ≠ [] →
      (validate_file_entry entry field_name).2 ≠ []) ∧
    (pyStrip entry ≠ [] → ('.' : Char) ∈ auditorFilename (pyStrip entry) →
      ((validate_file_entry entry field_name).2 ≠ [] ↔
        (parse_file_entry entry field_name dataset_id).2.2 ≠ [])) ∧
    (∀ f, (parse_file_entry entry field_name dataset_id).1 = some f →
      auditorFilename (pyStrip entry) = f) := by
  by_cases he : pyStrip entry = []
  · refine ⟨?_, ?_, ?_⟩
    · intro h
      simp [parse_file_entry, he] at h
    · intro hne
      exact absurd he hne
    · intro f h
      simp [parse_file_entry, he] at h
  · cases hs : splitOnce (str " - ") (pyStrip entry) with
    | none =>
      refine ⟨?_, ?_, ?_⟩
      · intro _
        simp [validate_file_entry, he, hs]
      · intro _ _
        constructor
        · intro _
          simp [parse_file_entry, he, hs]
        · intro _
          simp [validate_file_entry, he, hs]
      · intro f h
        simp [parse_file_entry, he, hs] at h
        have h2 : auditorFilename (pyStrip entry) = pyStrip entry := by
          simp [auditorFilename, hs]
        rw [h2]
        exact h
    | some p =>
      obtain ⟨p0, p1⟩ := p
      by_cases hfn : pyStrip p0 = []
      · refine ⟨?_, ?_, ?_⟩
        · intro _
          simp [validate_file_entry, he, hs, hfn]
        · intro _ _
          constructor
          · intro _
            simp [parse_file_entry, he, hs, hfn]
          · intro _
            simp [validate_file_entry, he, hs, hfn]
        · intro f h
          simp [parse_file_entry, he, hs, hfn] at h
      · by_cases hti : pyStrip p1 = []
        · refine ⟨?_, ?_, ?_⟩
          · intro _
            simp [validate_file_entry, he, hs, hfn, hti]
          · intro _ _
            constructor
            · intro _
              simp [parse_file_entry, he, hs, hfn, hti]
            · intro _
              simp [validate_file_entry, he, hs, hfn, hti]
          · intro f h
            simp [parse_file_entry, he, hs, hfn, hti] at h
            simp [auditorFilename, hs, h]
        · have hwarn : (parse_file_entry entry field_name dataset_id).2.2 = [] := by
            simp [parse_file_entry, he, hs, hfn, hti]
          refine ⟨?_, ?_, ?_⟩
          · intro h
            exact absurd hwarn h
          · intro _ hdot
            have hdot2 : ('.' : Char) ∈ pyStrip p0 := by
              simpa [auditorFilename, hs] using hdot
            have hL := pyStrip_getLast_ne_space (s := p0) hfn
            have hH := pyStrip_head_ne_space (s := p0) hfn
            have hval : (validate_file_entry entry field_name).2 = [] := by
              simp [validate_file_entry, he, hs, hfn, hti, hdot2, hL, hH]
            rw [hval, hwarn]
          · intro f h
            simp [parse_file_entry, he, hs, hfn, hti] at h
            simp [auditorFilename, hs, h]

/-- Witness for C3: a well-formed entry with an extension is clean on both
sides. -/
theorem C3_witness :
    (validate_file_entry (str "a.csv - T") (str "CSV Codes")).2 = [] := by
  have h := (C3_grammar_shared (str "a.csv - T") (str "CSV Codes") (str "147")).2.1
    (by decide) (by decide)
  by_contra hne
  exact (h.mp hne) (by decide)

/-! ### C7: the inline markup converter (markdown_to_tei) -/

/-- A segment of the inline markup conversion: the tuples
`('text', content)` / `('italic', content)` of the Python source. -/
inductive Seg where
  | text (content : Str)
  | italic (content : Str)
deriving DecidableEq

/-- Leftmost match of the regular expression `\*([^*]+)\*` (the pattern of
`re.finditer` in `markdown_to_tei`): `some (before, content, rest)` when a
match exists, decomposing the input as
`before ++ '*' :: content ++ '*' :: rest`. -/
def findEmph : Str → Option (Str × Str × Str)
  | [] => none
  | c :: cs =>
    if c = '*' then
      match cs.dropWhile (fun x => x ≠ '*') with
      | [] => none
      | _ :: ds =>
        if (cs.takeWhile (fun x => x ≠ '*')).isEmpty then
          (findEmph cs).map (fun p => (c :: p.1, p.2.1, p.2.2))
        else some ([], cs.takeWhile (fun x => x ≠ '*'), ds)
    else (findEmph cs).map (fun p => (c :: p.1, p.2.1, p.2.2))

theorem mem_takeWhile_sat (p : Char → Bool) :
    ∀ (l : Str) x, x ∈ l.takeWhile p → p x = true := by
  intro l
  induction l with
  | nil => intro x hx; simp [List.takeWhile] at hx
  | cons a as ih =>
    intro x hx
    rw [List.takeWhile_cons] at hx
    by_cases hp : p a = true
    · rw [if_pos hp] at hx
      rcases List.mem_cons.mp hx with h | h
      · rw [h]; exact hp
      · exact ih x h
    · rw [if_neg hp] at hx
      simp at hx

theorem findEmph_decomp :
    ∀ s b m r, findEmph s = some (b, m, r) →
      s = b ++ '*' :: (m ++ '*' :: r) ∧ m ≠ [] ∧ ('*' : Char) ∉ m := by
  intro s
  induction s with
  | nil => intro b m r h; simp [findEmph] at h
  | cons c cs ih =>
    intro b m r h
    by_cases hc : c = '*'
    · rw [findEmph, if_pos hc] at h
      cases hd : cs.dropWhile (fun x => x ≠ '*') with
      | nil => rw [hd] at h; simp at h
      | cons x ds =>
        rw [hd] at h
        dsimp only at h
        by_cases hemp : (cs.takeWhile (fun x => x ≠ '*')).isEmpty
        · rw [if_pos hemp] at h
          cases hcs : findEmph cs with
          | none => rw [hcs] at h; simp at h
          | some p =>
            rw [hcs] at h
            simp only [Option.map_some'] at h
            have h2 := Option.some.inj h
            injection h2 with hb hmr
            injection hmr with hm hr
            obtain ⟨hdec, hne, hnm⟩ := ih p.1 p.2.1 p.2.2 (by rw [hcs])
            subst hm; subst hr
            refine ⟨?_, hne, hnm⟩
            rw [← hb, hc]
            simp [hdec]
        · rw [if_neg hemp] at h
          have h2 := Option.some.inj h
          injection h2 with hb hmr
          injection hmr with hm hr
          have hx : x = '*' := by
            have := dropWhile_head_false (fun x => x ≠ '*') cs x ds hd
            simpa using this
          have hsplit : cs.takeWhile (fun x => x ≠ '*') ++
              cs.dropWhile (fun x => x ≠ '*') = cs :=
            List.takeWhile_append_dropWhile _ _
          refine ⟨?_, ?_, ?_⟩
          · rw [← hb, hc, ← hm, ← hr]
            simp only [List.nil_append]
            have hcs2 : cs = List.takeWhile (fun x => decide (x ≠ '*')) cs ++ '*' :: ds := by
              conv_lhs => rw [← hsplit]
              rw [hd, hx]
            rw [← hcs2]
          · rw [← hm]
            intro hnil
            rw [hnil] at hemp
            simp at hemp
          · rw [← hm]
            intro hmem
            have := mem_takeWhile_sat _ cs '*' hmem
            simp at this
    · rw [findEmph, if_neg hc] at h
      cases hcs : findEmph cs with
      | none => rw [hcs] at h; simp at h
      | some p =>
        rw [hcs] at h
        simp only [Option.map_some'] at h
        have h2 := Option.some.inj h
        injection h2 with hb hmr
        injection hmr with hm hr
        obtain ⟨hdec, hne, hnm⟩ := ih p.1 p.2.1 p.2.2 (by rw [hcs])
        subst hm; subst hr
        refine ⟨?_, hne, hnm⟩
        rw [← hb]
        simp [hdec]

theorem findEmph_rest_lt (s b m r : Str) (h : findEmph s = some (b, m, r)) :
    r.length < s.length := by
  have hd := (findEmph_decomp s b m r h).1
  rw [hd]
  simp [List.length_append]
  omega

theorem dropWhile_append_sat {p : Char → Bool} :
    ∀ {l₁ l₂ : Str}, (∀ x ∈ l₁, p x = true) →
      (l₁ ++ l₂).dropWhile p = l₂.dropWhile p := by
  intro l₁
  induction l₁ with
  | nil => intro l₂ _; simp
  | cons a as ih =>
    intro l₂ h
    rw [List.cons_append, List.dropWhile_cons, if_pos (h a (by simp))]
    exact ih (fun x hx => h x (by simp [hx]))

theorem takeWhile_append_sat {p : Char → Bool} :
    ∀ {l₁ l₂ : Str}, (∀ x ∈ l₁, p x = true) →
      (l₁ ++ l₂).takeWhile p = l₁ ++ l₂.takeWhile p := by
  intro l₁
  induction l₁ with
  | nil => intro l₂ _; simp
  | cons a as ih =>
    intro l₂ h
    rw [List.cons_append, List.takeWhile_cons, if_pos (h a (by simp))]
    rw [ih (fun x hx => h x (by simp [hx])), List.cons_append]

theorem findEmph_some_of_decomp :
    ∀ (b m r : Str), m ≠ [] → ('*' : Char) ∉ m →
      findEmph (b ++ '*' :: (m ++ '*' :: r)) ≠ none := by
  intro b
  induction b with
  | nil =>
    intro m r hne hnm
    simp only [List.nil_append]
    rw [findEmph, if_pos rfl]
    have hall : ∀ x ∈ m, (fun x => decide (x ≠ '*')) x = true := by
      intro x hx
      simp
      intro he
      rw [he] at hx
      exact hnm hx
    have hdw : (m ++ '*' :: r).dropWhile (fun x => x ≠ '*') = '*' :: r := by
      rw [dropWhile_append_sat hall, List.dropWhile_cons]
      simp
    have htw : (m ++ '*' :: r).takeWhile (fun x => x ≠ '*') = m := by
      rw [takeWhile_append_sat hall, List.takeWhile_cons]
      simp
    rw [hdw, htw]
    have : m.isEmpty = false := by
      cases m with
      | nil => exact absurd rfl hne
      | cons a as => rfl
    rw [this]
    simp
  | cons x b ih =>
    intro m r hne hnm
    rw [List.cons_append, findEmph]
    by_cases hx : x = '*'
    · rw [if_pos hx]
      have hmem : ('*' : Char) ∈ b ++ '*' :: (m ++ '*' :: r) := by simp
      have hdw : (b ++ '*' :: (m ++ '*' :: r)).dropWhile (fun x => x ≠ '*') ≠ [] := by
        intro hnil
        have := List.dropWhile_eq_nil_iff.mp hnil '*' hmem
        simp at this
      cases hd : (b ++ '*' :: (m ++ '*' :: r)).dropWhile (fun x => x ≠ '*') with
      | nil => exact absurd hd hdw
      | cons y ds =>
        dsimp only
        by_cases hemp : ((b ++ '*' :: (m ++ '*' :: r)).takeWhile (fun x => x ≠ '*')).isEmpty
        · rw [if_pos hemp]
          have := ih m r hne hnm
          intro hmap
          rw [Option.map_eq_none'] at hmap
          exact this hmap
        · rw [if_neg hemp]
          simp
    · rw [if_neg hx]
      have := ih m r hne hnm
      intro hmap
      rw [Option.map_eq_none'] at hmap
      exact this hmap

/-- `findEmph` finds a match exactly when a `*…*` span (nonempty,
star-free content) occurs anywhere in the input. -/
theorem findEmph_none_iff (s : Str) :
    findEmph s = none ↔
      ¬∃ b m r, s = b ++ '*' :: (m ++ '*' :: r) ∧ m ≠ [] ∧ ('*' : Char) ∉ m := by
  constructor
  · rintro h ⟨b, m, r, hdec, hne, hnm⟩
    rw [hdec] at h
    exact findEmph_some_of_decomp b m r hne hnm h
  · intro h
    cases hf : findEmph s with
    | none => rfl
    | some p =>
      obtain ⟨hdec, hne, hnm⟩ := findEmph_decomp s p.1 p.2.1 p.2.2 (by rw [hf])
      exact absurd ⟨p.1, p.2.1, p.2.2, hdec, hne, hnm⟩ h

/-- The scanning loop of `markdown_to_tei` over `re.finditer` matches.
Fuel-based recursion; `s.length + 1` fuel always suffices since every
match consumes at least two characters of the remainder. -/
def mdPartsAux : Nat → Str → List Seg
  | 0, s => if s.isEmpty then [] else [Seg.text s]
  | n + 1, s =>
    match findEmph s with
    | none => if s.isEmpty then [] else [Seg.text s]
    | some (b, m, r) =>
      (if b.isEmpty then [] else [Seg.text b]) ++ Seg.italic m :: mdPartsAux n r

/-- The parts list built by `markdown_to_tei` for truthy input. -/
def mdParts (s : Str) : List Seg := mdPartsAux (s.length + 1) s

/-- `convert_csv_to_tei.markdown_to_tei`: `None` for falsy input, else the
ordered text/italic parts list. -/
def markdown_to_tei (text : Str) : Option (List Seg) :=
  if text.isEmpty then none else some (mdParts text)

/-- Re-insert the matched delimiters: inverse reading of the conversion. -/
def renderSeg : Seg → Str
  | Seg.text c => c
  | Seg.italic m => '*' :: (m ++ ['*'])

/-- Concatenation of all segments with emphasis delimiters re-inserted. -/
def renderSegs (l : List Seg) : Str := (l.map renderSeg).flatten

theorem renderSegs_append (a b : List Seg) :
    renderSegs (a ++ b) = renderSegs a ++ renderSegs b := by
  simp [renderSegs]

theorem mdPartsAux_render :
    ∀ n (s : Str), s.length ≤ n → renderSegs (mdPartsAux n s) = s := by
  intro n
  induction n with
  | zero =>
    intro s hs
    have hnil : s = [] := List.eq_nil_of_length_eq_zero (Nat.le_zero.mp hs)
    subst hnil
    simp [mdPartsAux, renderSegs]
  | succ n ih =>
    intro s hs
    rw [mdPartsAux]
    cases hf : findEmph s with
    | none =>
      cases s with
      | nil => simp [renderSegs]
      | cons c cs => simp [renderSegs, renderSeg]
    | some p =>
      obtain ⟨b, m, r⟩ := p
      have hlt := findEmph_rest_lt s b m r hf
      have hr : r.length ≤ n := by omega
      have hdec := (findEmph_decomp s b m r hf).1
      rw [renderSegs_append]
      have hcons : renderSegs (Seg.italic m :: mdPartsAux n r) =
          '*' :: (m ++ '*' :: renderSegs (mdPartsAux n r)) := by
        simp [renderSegs, renderSeg]
      rw [hcons, ih r hr]
      by_cases hb : b.isEmpty
      · have hbnil : b = [] := by
          cases b with
          | nil => rfl
          | cons a as => simp at hb
        subst hbnil
        rw [if_pos hb]
        have h0 : renderSegs [] = [] := rfl
        rw [h0, List.nil_append, hdec]
        simp
      · rw [if_neg hb]
        have hrb : renderSegs [Seg.text b] = b := by simp [renderSegs, renderSeg]
        rw [hrb, hdec]

theorem mdParts_render (s : Str) : renderSegs (mdParts s) = s :=
  mdPartsAux_render (s.length + 1) s (Nat.le_succ _)

theorem mdPartsAux_italic_ne :
    ∀ n (s : Str) m, Seg.italic m ∈ mdPartsAux n s → m ≠ [] := by
  intro n
  induction n with
  | zero =>
    intro s m hm
    by_cases h : s.isEmpty <;> simp [mdPartsAux, h] at hm
  | succ n ih =>
    intro s m hm
    rw [mdPartsAux] at hm
    cases hf : findEmph s with
    | none =>
      rw [hf] at hm
      by_cases h : s.isEmpty <;> simp [h] at hm
    | some p =>
      obtain ⟨b, mm, r⟩ := p
      rw [hf] at hm
      rcases List.mem_append.mp hm with h | h
      · by_cases hb : b.isEmpty <;> simp [hb] at h
      · rcases List.mem_cons.mp h with h | h
        · injection h with h
          rw [h]
          exact (findEmph_decomp s b mm r hf).2.1
        · exact ih r m h

theorem mdParts_nomatch (s : Str) (hne : s ≠ []) (hf : findEmph s = none) :
    mdParts s = [Seg.text s] := by
  rw [mdParts, mdPartsAux, hf]
  cases s with
  | nil => exact absurd rfl hne
  | cons c cs => rfl

/-- C7: `markdown_to_tei` (the `to_segments` of the spec) returns no
segments for empty input (the Python function returns `None` there, which
every caller treats as "no segments"); re-inserting the matched `*`
delimiters around emphasis segments and concatenating all contents in
order reproduces the input exactly (so the concatenated contents are the
input with the matched delimiters stripped); input containing no complete
`*…*` span — in particular an unmatched single `*` — is one single plain
segment; every emphasis segment is nonempty; and the two concrete spec
examples hold. -/
theorem C7_to_segments (s : Str) :
    (markdown_to_tei s = none ↔ s = []) ∧
    (∀ parts, markdown_to_tei s = some parts → renderSegs parts = s) ∧
    (s ≠ [] →
      (¬∃ b m r, s = b ++ '*' :: (m ++ '*' :: r) ∧ m ≠ [] ∧ ('*' : Char) ∉ m) →
      markdown_to_tei s = some [Seg.text s]) ∧
    (∀ parts m, markdown_to_tei s = some parts → Seg.italic m ∈ parts → m ≠ []) ∧
    markdown_to_tei (str "plain") = some [Seg.text (str "plain")] ∧
    markdown_to_tei (str "a *b* c") =
      some [Seg.text (str "a "), Seg.italic (str "b"), Seg.text (str " c")] := by
  refine ⟨?_, ?_, ?_, ?_, by decide, by decide⟩
  · rw [markdown_to_tei]
    cases s with
    | nil => simp
    | cons c cs => simp
  · intro parts h
    rw [markdown_to_tei] at h
    cases hs : s.isEmpty
    · rw [hs] at h
      simp only [Bool.false_eq_true, if_false] at h
      have := Option.some.inj h
      rw [← this]
      exact mdParts_render s
    · rw [hs] at h
      simp at h
  · intro hne hno
    have hf : findEmph s = none := (findEmph_none_iff s).mpr hno
    rw [markdown_to_tei]
    have hs : s.isEmpty = false := by
      cases s with
      | nil => exact absurd rfl hne
      | cons c cs => rfl
    rw [hs]
    simp only [Bool.false_eq_true, if_false]
    rw [mdParts_nomatch s hne hf]
  · intro parts m h hm
    rw [markdown_to_tei] at h
    cases hs : s.isEmpty
    · rw [hs] at h
      simp only [Bool.false_eq_true, if_false] at h
      have := Option.some.inj h
      rw [← this] at hm
      exact mdPartsAux_italic_ne _ s m hm
    · rw [hs] at h
      simp at h

/-- Witness for C7: the concrete example round-trips. -/
theorem C7_witness :
    renderSegs [Seg.text (str "a "), Seg.italic (str "b"), Seg.text (str " c")] =
      str "a *b* c" := by
  have h := C7_to_segments (str "a *b* c")
  exact h.2.1 _ h.2.2.2.2.2

/-! ### C10: the dataset table loader (parse_csv_column) -/

/-- One record's update for one cell (the body of the inner loop of
`parse_csv_column`): a missing cell (`col_idx < len(row)` fails), an
empty cell and a whitespace-only cell all leave the record unchanged;
otherwise the stripped value is bound. -/
def applyCell (field : Str) (d : Record) : Option Str → Record
  | some cell =>
    let value := pyStrip cell
    if value ≠ [] then dictInsert d field value else d
  | none => d

/-- The inner per-dataset loop of `parse_csv_column` for one row: record
`i` reads cell `i + 2` (offset for the two reserved columns). -/
def applyRowAux (row : List Str) (field : Str) : Nat → List Record → List Record
  | _, [] => []
  | i, d :: ds =>
    applyCell field d (row[i + 2]?) :: applyRowAux row field (i + 1) ds

/-- One row step of `parse_csv_column`: rows with fewer than two cells and
rows with a blank field name are skipped. -/
def applyRow (recs : List Record) (row : List Str) : List Record :=
  if row.length < 2 ∨ pyStrip (row.headD []) = [] then recs
  else applyRowAux row (pyStrip (row.headD [])) 0 recs

/-- `convert_csv_to_tei.parse_csv_column` on the raw table rows: `none`
models the IndexError Python raises on `rows[1]` when the whole table has
fewer than two rows (the claim is only about short rows, which never
raise). -/
def parse_csv_column (rows : List (List Str)) : Option (List Record) :=
  match rows with
  | _ :: r1 :: _ =>
    let dataset_headers := r1.drop 2
    let num_datasets := (dataset_headers.filter (fun h => pyStrip h ≠ [])).length
    some ((rows.drop 4).foldl applyRow (List.replicate num_datasets []))
  | _ => none

theorem rget_dictInsert (d : Record) (k v k2 : Str) :
    rget (dictInsert d k v) k2 = if k = k2 then some v else rget d k2 := by
  induction d with
  | nil =>
    by_cases h : k = k2 <;> simp [dictInsert, rget, h]
  | cons kv rest ih =>
    obtain ⟨k0, v0⟩ := kv
    rw [dictInsert]
    by_cases h0 : k0 = k
    · subst h0
      rw [if_pos rfl, rget, rget]
      by_cases h1 : k0 = k2
      · rw [if_pos h1, if_pos h1]
      · rw [if_neg h1, if_neg h1, if_neg (fun he : k0 = k2 => h1 he)]
    · rw [if_neg h0, rget, rget]
      by_cases h1 : k0 = k2
      · rw [if_pos h1, if_pos h1]
        have hne : k ≠ k2 := fun he => h0 (h1.trans he.symm)
        rw [if_neg hne]
      · rw [if_neg h1, if_neg h1, ih]

/-- Invariant of loaded records: every bound value is nonempty and
trimmed. -/
def GoodRec (d : Record) : Prop :=
  ∀ k v, rget d k = some v → v ≠ [] ∧ pyStrip v = v

theorem dropWhile_eq_self_of_head {p : Char → Bool} {l : Str} {c0 : Char}
    (hh : l.head? = some c0) (hp : p c0 = false) : l.dropWhile p = l := by
  cases l with
  | nil => rfl
  | cons c t =>
    have hc : c = c0 := by injection hh
    rw [List.dropWhile_cons, hc, hp]
    simp

theorem pyStrip_idem (s : Str) : pyStrip (pyStrip s) = pyStrip s := by
  by_cases h : pyStrip s = []
  · rw [h]
    rfl
  · obtain ⟨⟨c1, hc1, hw1⟩, ⟨c2, hc2, hw2⟩⟩ := pyStrip_boundary s h
    show ((((pyStrip s).dropWhile Char.isWhitespace).reverse.dropWhile
      Char.isWhitespace)).reverse = pyStrip s
    rw [dropWhile_eq_self_of_head hc1 hw1]
    have hrev : (pyStrip s).reverse.head? = some c2 := by
      rw [List.head?_reverse]
      exact hc2
    rw [dropWhile_eq_self_of_head hrev hw2]
    exact List.reverse_reverse _

theorem GoodRec_nil : GoodRec [] := by
  intro k v h
  simp [rget] at h

theorem GoodRec_insert {d : Record} (k v : Str) (hd : GoodRec d)
    (hv : v ≠ [] ∧ pyStrip v = v) : GoodRec (dictInsert d k v) := by
  intro k2 v2 h
  rw [rget_dictInsert] at h
  by_cases hk : k = k2
  · rw [if_pos hk] at h
    have : v = v2 := by injection h
    exact this ▸ hv
  · rw [if_neg hk] at h
    exact hd k2 v2 h

theorem applyCell_good (field : Str) (d : Record) (c : Option Str)
    (hd : GoodRec d) : GoodRec (applyCell field d c) := by
  cases c with
  | none => exact hd
  | some cell =>
    simp only [applyCell]
    by_cases hv : pyStrip cell ≠ []
    · rw [if_pos hv]
      exact GoodRec_insert field (pyStrip cell) hd ⟨hv, pyStrip_idem cell⟩
    · rw [if_neg hv]
      exact hd

theorem applyRowAux_good (row : List Str) (field : Str) :
    ∀ (recs : List Record) (i : Nat), (∀ d ∈ recs, GoodRec d) →
      ∀ d ∈ applyRowAux row field i recs, GoodRec d := by
  intro recs
  induction recs with
  | nil => intro i _ d hd; simp [applyRowAux] at hd
  | cons d0 ds ih =>
    intro i hall d hd
    rw [applyRowAux] at hd
    rcases List.mem_cons.mp hd with h | h
    · subst h
      exact applyCell_good field d0 (row[i + 2]?) (hall d0 (by simp))
    · exact ih (i + 1) (fun d2 hd2 => hall d2 (by simp [hd2])) d h

theorem applyRow_good (recs : List Record) (row : List Str)
    (h : ∀ d ∈ recs, GoodRec d) : ∀ d ∈ applyRow recs row, GoodRec d := by
  rw [applyRow]
  by_cases hskip : row.length < 2 ∨ pyStrip (row.headD []) = []
  · rw [if_pos hskip]
    exact h
  · rw [if_neg hskip]
    exact applyRowAux_good row _ recs 0 h

theorem foldl_preserve_mem {α β : Type} (P : β → Prop) (f : β → α → β) :
    ∀ (l : List α) (b : β), (∀ b2 a, a ∈ l → P b2 → P (f b2 a)) →
      P b → P (l.foldl f b) := by
  intro l
  induction l with
  | nil => intro b _ hb; exact hb
  | cons a as ih =>
    intro b hf hb
    rw [List.foldl_cons]
    exact ih (f b a) (fun b2 a2 ha2 => hf b2 a2 (by simp [ha2])) (hf b a (by simp) hb)

/-- Position-indexed characterization of the inner loop: the record at
position `j` of `applyRowAux row field i0 recs` is the record at position
`j` of `recs`, updated from the cell at column `i0 + j + 2`. -/
theorem applyRowAux_getElem (row : List Str) (field : Str) :
    ∀ (recs : List Record) (i0 j : Nat),
      (applyRowAux row field i0 recs)[j]? =
        (recs[j]?).map (fun d => applyCell field d (row[i0 + j + 2]?)) := by
  intro recs
  induction recs with
  | nil => intro i0 j; simp [applyRowAux]
  | cons d0 ds ih =>
    intro i0 j
    have hunf : applyRowAux row field i0 (d0 :: ds) =
        applyCell field d0 (row[i0 + 2]?) ::
          applyRowAux row field (i0 + 1) ds := rfl
    match j with
    | 0 =>
      rw [hunf, List.getElem?_cons_zero, List.getElem?_cons_zero,
        Option.map_some']
    | j + 1 =>
      rw [hunf, List.getElem?_cons_succ, List.getElem?_cons_succ,
        ih (i0 + 1) j]
      have harith : i0 + 1 + j + 2 = i0 + (j + 1) + 2 := by omega
      rw [harith]

/-- One row step preserves absence of field `k` at record position `i`
whenever the row either does not name `k` or its data cell for column
`i + 2` is missing or strips empty. -/
theorem applyRow_nobind_at (k : Str) (i : Nat) (row : List Str)
    (hrow : pyStrip (row.headD []) = k →
      ∀ cell, row[i + 2]? = some cell → pyStrip cell = [])
    (recs : List Record)
    (hprev : ∀ d, recs[i]? = some d → rget d k = none) :
    ∀ d, (applyRow recs row)[i]? = some d → rget d k = none := by
  intro d hd
  rw [applyRow] at hd
  by_cases hskip : row.length < 2 ∨ pyStrip (row.headD []) = []
  · rw [if_pos hskip] at hd
    exact hprev d hd
  · rw [if_neg hskip] at hd
    have h02 : 0 + i + 2 = i + 2 := by omega
    rw [applyRowAux_getElem row _ recs 0 i, h02] at hd
    cases hri : recs[i]? with
    | none => rw [hri] at hd; simp at hd
    | some d0 =>
      rw [hri] at hd
      simp only [Option.map_some'] at hd
      have hd0 := hprev d0 hri
      have hdd := Option.some.inj hd
      cases hcell : row[i + 2]? with
      | none =>
        rw [hcell] at hdd
        rw [← hdd]
        exact hd0
      | some cell =>
        rw [hcell] at hdd
        simp only [applyCell] at hdd
        by_cases hfield : pyStrip (row.headD []) = k
        · have hblank : pyStrip cell = [] := hrow hfield cell hcell
          rw [if_neg (by simp [hblank])] at hdd
          rw [← hdd]
          exact hd0
        · by_cases hv : pyStrip cell ≠ []
          · rw [if_pos hv] at hdd
            rw [← hdd, rget_dictInsert, if_neg hfield]
            exact hd0
          · rw [if_neg hv] at hdd
            rw [← hdd]
            exact hd0

/-- C10: every record produced by `parse_csv_column` binds field names
only to nonempty, whitespace-trimmed values; for record `i`, a field name
`k` whose data cell (column `i + 2`) is missing (short row), empty or
whitespace-only in every row naming `k` stays absent from record `i` (it
is never bound to an empty string); and loading is total — short rows
never raise (cells beyond a row's length are guarded by the
`col_idx < len(row)` check), the only failure being a table with fewer
than two rows overall. -/
theorem C10_loader_invariant (rows : List (List Str)) :
    (rows.length ≥ 2 → ∃ recs, parse_csv_column rows = some recs) ∧
    (∀ recs, parse_csv_column rows = some recs →
      ∀ d ∈ recs, ∀ k v, rget d k = some v → v ≠ [] ∧ pyStrip v = v) ∧
    (∀ recs, parse_csv_column rows = some recs →
      ∀ i d, recs[i]? = some d → ∀ k,
        (∀ row ∈ rows.drop 4, pyStrip (row.headD []) = k →
          ∀ cell, row[i + 2]? = some cell → pyStrip cell = []) →
        rget d k = none) := by
  refine ⟨?_, ?_, ?_⟩
  · intro hlen
    match rows with
    | [] => simp at hlen
    | [r0] => simp at hlen
    | r0 :: r1 :: rest => exact ⟨_, rfl⟩
  · intro recs hrecs d hd k v hkv
    match rows with
    | [] => simp [parse_csv_column] at hrecs
    | [r0] => simp [parse_csv_column] at hrecs
    | r0 :: r1 :: rest =>
      rw [parse_csv_column] at hrecs
      have hrecs2 := Option.some.inj hrecs
      have hgood : ∀ d2 ∈ recs, GoodRec d2 := by
        rw [← hrecs2]
        apply foldl_preserve_mem (fun recs2 => ∀ d2 ∈ recs2, GoodRec d2)
        · intro b a _ hb
          exact applyRow_good b a hb
        · intro d2 hd2
          have := List.eq_of_mem_replicate hd2
          rw [this]
          exact GoodRec_nil
      exact hgood d hd k v hkv
  · intro recs hrecs i d hd k hk
    match rows with
    | [] => simp [parse_csv_column] at hrecs
    | [r0] => simp [parse_csv_column] at hrecs
    | r0 :: r1 :: rest =>
      rw [parse_csv_column] at hrecs
      have hrecs2 := Option.some.inj hrecs
      have hnb : ∀ d2, recs[i]? = some d2 → rget d2 k = none := by
        rw [← hrecs2]
        apply foldl_preserve_mem
          (fun recs2 => ∀ d2, recs2[i]? = some d2 → rget d2 k = none)
        · intro b row hrowmem hb
          exact applyRow_nobind_at k i row
            (fun hname => hk row hrowmem hname) b hb
        · intro d2 hd2
          have hmem : d2 ∈ List.replicate
              ((r1.drop 2).filter (fun h => pyStrip h ≠ [])).length
              ([] : Record) := by
            obtain ⟨hlt, he⟩ := List.getElem?_eq_some.mp hd2
            exact he ▸ List.getElem_mem hlt
          rw [List.eq_of_mem_replicate hmem]
          simp [rget]
      exact hnb d hd

/-- Witness for C10: a concrete five-row table whose data row `["Jahr",
"x", " 1900 "]` binds the trimmed value, and a second table whose short
data row `["Jahr", "x"]` has no cell for the dataset column, leaving the
named field `Jahr` absent from the record. -/
theorem C10_witness :
    ((str "1900") ≠ [] ∧ pyStrip (str "1900") = str "1900") ∧
    rget [] (str "Jahr") = none := by
  constructor
  · have h := (C10_loader_invariant [[], [str "F", str "T", str "DS1"], [], [],
      [str "Jahr", str "x", str " 1900 "]]).2.1
    exact h [[(str "Jahr", str "1900")]] (by decide) [(str "Jahr", str "1900")]
      (by decide) (str "Jahr") (str "1900") (by decide)
  · have h := (C10_loader_invariant [[], [str "F", str "T", str "DS1"], [], [],
      [str "Jahr", str "x"]]).2.2
    apply h [[]] (by decide) 0 [] (by decide) (str "Jahr")
    intro row hrowmem hname cell hcell
    have hr : row = [str "Jahr", str "x"] := by
      simpa using hrowmem
    subst hr
    have heval : ([str "Jahr", str "x"] : List Str)[0 + 2]? = none := by decide
    rw [heval] at hcell
    exact absurd hcell (by simp)

/-! ### Document synthesizer: ElementTree embedding -/

/-- ElementTree elements: tag, attribute list (insertion-ordered, as
Python dicts), optional text, optional tail, children. -/
inductive XElem : Type where
  | mk (tag : Str) (attribs : List (Str × Str)) (text : Option Str)
      (tail : Option Str) (children : List XElem)

def XElem.tag : XElem → Str
  | XElem.mk t _ _ _ _ => t

def XElem.attribs : XElem → List (Str × Str)
  | XElem.mk _ a _ _ _ => a

def XElem.text : XElem → Option Str
  | XElem.mk _ _ tx _ _ => tx

def XElem.tail : XElem → Option Str
  | XElem.mk _ _ _ tl _ => tl

def XElem.children : XElem → List XElem
  | XElem.mk _ _ _ _ c => c

def XElem.setTextE : XElem → Option Str → XElem
  | XElem.mk t a _ tl c, tx => XElem.mk t a tx tl c

def XElem.setTail : XElem → Option Str → XElem
  | XElem.mk t a tx _ c, tl => XElem.mk t a tx tl c

def XElem.appendChild : XElem → XElem → XElem
  | XElem.mk t a tx tl c, ch => XElem.mk t a tx tl (c ++ [ch])

/-- Append `content` to the tail of the last child, as `add_mixed_content`
does; no children means no change (the Python guard `len(parent) > 0`). -/
def XElem.addTailLast : XElem → Str → XElem
  | XElem.mk t a tx tl c, content =>
    match c.getLast? with
    | none => XElem.mk t a tx tl c
    | some last =>
      let last2 := match last.tail with
        | some t0 => last.setTail (some (t0 ++ content))
        | none => last.setTail (some content)
      XElem.mk t a tx tl (c.dropLast ++ [last2])

def TEI_NS : Str := str "http://www.tei-c.org/ns/1.0"

def XML_NS : Str := str "http://www.w3.org/XML/1998/namespace"

/-- Qualified tag `{ns}name`, as ElementTree names namespaced elements and
attributes. -/
def nsTag (ns t : Str) : Str := (str "\x7b") ++ ns ++ (str "\x7d") ++ t

def xmlLang : Str := nsTag XML_NS (str "lang")

def xmlId : Str := nsTag XML_NS (str "id")

/-- `convert_csv_to_tei.create_tei_element`: falsy text (absent or the
empty string) sets no text. -/
def create_tei_element (tag : Str) (text : Option Str)
    (attrib : List (Str × Str)) : XElem :=
  XElem.mk (nsTag TEI_NS tag) attrib
    (match text with
     | some t => if t = [] then none else some t
     | none => none)
    none []

/-- The loop of `add_mixed_content` over the parts: a text part at index 0
becomes the parent's text, later text parts extend the tail of the last
child, italic parts append a `hi rend="italic"` child. -/
def addMixedLoop : Nat → List Seg → XElem → XElem
  | _, [], parent => parent
  | i, Seg.text content :: rest, parent =>
    addMixedLoop (i + 1) rest
      (if i = 0 then parent.setTextE (some content)
       else parent.addTailLast content)
  | i, Seg.italic content :: rest, parent =>
    addMixedLoop (i + 1) rest
      (parent.appendChild
        (create_tei_element (str "hi") (some content) [(str "rend", str "italic")]))

/-- `convert_csv_to_tei.add_mixed_content`. -/
def add_mixed_content (parent : XElem) (text : Str) : XElem :=
  if text = [] then parent
  else
    match markdown_to_tei text with
    | none => parent.setTextE (some text)
    | some parts =>
      if parts = [] then parent.setTextE (some text)
      else addMixedLoop 0 parts parent

/-- `convert_csv_to_tei.add_title` (the built element; the caller
appends): empty strings stand for the Python `None` defaults. -/
def add_title_elem (title_text : Option Str) (level lang ref : Str) : XElem :=
  create_tei_element (str "title") title_text
    ((if level ≠ [] then [(str "level", level)] else []) ++
     (if lang ≠ [] then [(xmlLang, lang)] else []) ++
     (if ref ≠ [] then [(str "ref", ref)] else []))

/-- `convert_csv_to_tei.add_person_name` (the built persName element). -/
def persName_elem (forename surname : Str) : XElem :=
  XElem.mk (nsTag TEI_NS (str "persName")) [] none none
    [create_tei_element (str "forename") (some forename) [],
     create_tei_element (str "surname") (some surname) []]

/-- `convert_csv_to_tei.get_wikidata_qid`. -/
def get_wikidata_qid (location_name : Str) : Option Str :=
  if location_name = str "Serbia" then some (str "Q403")
  else if location_name = str "Albania" then some (str "Q222")
  else if location_name = str "Montenegro" then some (str "Q236")
  else if location_name = str "Turkey" then some (str "Q43")
  else if location_name = str "Bosnia" then some (str "Q225")
  else if location_name = str "Greece" then some (str "Q41")
  else if location_name = str "Bulgaria" then some (str "Q219")
  else if location_name = str "Romania" then some (str "Q218")
  else if location_name = str "Croatia" then some (str "Q224")
  else if location_name = str "Istanbul" then some (str "Q406")
  else if location_name = str "Kruševac" then some (str "Q201442")
  else if location_name = str "Krušev ac" then some (str "Q201442")
  else none

/-- Python `s.split()` with no argument: words separated by whitespace
runs, no empty words.  Fuel-based; `s.length` fuel always suffices. -/
def pyWordsAux : Nat → Str → List Str
  | 0, _ => []
  | _ + 1, [] => []
  | n + 1, c :: cs =>
    if c.isWhitespace then pyWordsAux n cs
    else (c :: cs.takeWhile (fun x => !x.isWhitespace)) ::
      pyWordsAux n (cs.dropWhile (fun x => !x.isWhitespace))

def pyWords (s : Str) : List Str := pyWordsAux s.length s

/-- The first clause taken by `parse_citation_authors`: the regex
`^([^.]+?)\.` (at least one character before the first `.`), else
`^([^*]+)\*` (the maximal star-free prefix before a `*`). -/
def firstClause (s : Str) : Option Str :=
  let beforeDot := s.takeWhile (fun c => c ≠ '.')
  if beforeDot ≠ [] ∧ beforeDot.length < s.length then some beforeDot
  else
    let beforeStar := s.takeWhile (fun c => c ≠ '*')
    if beforeStar ≠ [] ∧ beforeStar.length < s.length then some beforeStar
    else none

/-- The author-list pipeline of `parse_citation_authors` applied to the
matched clause: strip, replace `" and "` by `", "`, split on commas, strip
entries, drop empty entries. -/
def splitAuthors (clause : Str) : List Str :=
  (((pyReplace (str " and ") (str ", ") (pyStrip clause)).splitOn ',').map
    pyStrip).filter (fun a => a ≠ [])

/-- `convert_csv_to_tei.parse_citation_authors`. -/
def parse_citation_authors (citation_text : Str) : List Str :=
  if citation_text = [] then []
  else
    match firstClause citation_text with
    | none => []
    | some clause => splitAuthors clause

/-- One editor element for a parsed author name (`create_tei_document`
lines 446-452): `none` when the name has fewer than two
whitespace-separated tokens. -/
def editorOfName (author_name : Str) : Option XElem :=
  let name_parts := pyWords (pyStrip author_name)
  if name_parts.length ≥ 2 then
    some (XElem.mk (nsTag TEI_NS (str "editor"))
      [(str "ana", str "marcrelator:edt")] none none
      [persName_elem (List.intercalate (str " ") name_parts.dropLast)
        (name_parts.getLastD [])])
  else none

/-- The editor elements appended to titleStmt: the parsed authors capped
at three, single-token names skipped; one placeholder editor when the
author list is empty. -/
def citationEditors (author_names : List Str) : List XElem :=
  if author_names ≠ [] then
    (author_names.take 3).filterMap editorOfName
  else
    [XElem.mk (nsTag TEI_NS (str "editor"))
      [(str "ana", str "marcrelator:edt")] none none
      [persName_elem (str "FIRST") (str "LAST")]]

/-- `convert_csv_to_tei.sanitize_xml_id`. -/
def sanitize_xml_id (filename : Str) : Str :=
  if filename = [] then str "id_unknown"
  else
    let id1 := pyReplace (str ".csv") [] filename
    let id2 := pyReplace (str ".pdf") [] id1
    let id3 := pyReplace (str ".jpg") [] id2
    let id4 := pyReplace (str ".JPG") [] id3
    let id5 := pyReplace (str ".jpeg") [] id4
    let id6 := pyReplace (str ".png") [] id5
    let id7 := pyReplace (str " ") (str "_") id6
    let id8 := pyReplace (str ".") (str "_") id7
    let id9 := pyReplace (str "-") (str "_") id8
    let id10 :=
      match id9 with
      | c :: _ => if c.isDigit then '_' :: id9 else id9
      | [] => id9
    if id10 = [] then str "id_unknown" else id10

/-- `add_folder_prefix` in the source (renamed here): URL
`../<folder>/<filename>` when a folder mapping exists, else the bare
filename. -/
def add_folder_url (filename dataset_id : Str) : Str :=
  match DATASET_FOLDERS dataset_id with
  | some folder =>
    if filename ≠ [] then str "../" ++ folder ++ str "/" ++ filename
    else filename
  | none => filename

/-- Python `x or default` for an optional string: the value when present
and nonempty, else the default. -/
def pyOr (o : Option Str) (dflt : Str) : Str :=
  match o with
  | some t => if t = [] then dflt else t
  | none => dflt

/-- Python truthiness of `dict.get(k)`: present and nonempty. -/
def optTruthy : Option Str → Bool
  | some s => !s.isEmpty
  | none => false

/-- Python `s.split(sep)` for a nonempty string separator (used for the
blank-line paragraph split).  Fuel-based; `s.length + 1` suffices. -/
def pySplitAux (sep : Str) : Nat → Str → List Str
  | 0, s => [s]
  | n + 1, s =>
    match splitOnce sep s with
    | none => [s]
    | some (l, r) => l :: pySplitAux sep n r

def pySplitStr (sep s : Str) : List Str := pySplitAux sep (s.length + 1) s

/-- The lowercased extension after the last `.`, as
`filename.split('.')[-1].lower()`. -/
def bildExt (filename : Str) : Str :=
  ((filename.splitOn '.').getLastD []).map Char.toLower

/-- The `mime_map.get(ext, 'image/jpeg')` table of the Bild block. -/
def imageMimeOfExt (ext : Str) : Str :=
  if ext = str "jpg" then str "image/jpeg"
  else if ext = str "jpeg" then str "image/jpeg"
  else if ext = str "png" then str "image/png"
  else if ext = str "pdf" then str "application/pdf"
  else str "image/jpeg"

/-- The CSV Codes / CSV Labels block of `create_tei_document` (lines
633-667; the two blocks are identical up to field name, rs type and
default title): the optional rs element and the warnings recorded. -/
def processCsvField (dataset_id field_key rs_type default_title : Str)
    (v : Option Str) : Option XElem × List Str :=
  match v with
  | some val =>
    if val ≠ [] then
      let pfe := parse_file_entry val field_key dataset_id
      match pfe.1 with
      | some filename =>
        if filename ≠ [] then
          (some (XElem.mk (nsTag TEI_NS (str "rs")) [(str "type", rs_type)]
            none none
            [add_title_elem (some (pyOr pfe.2.1 default_title)) [] [] [],
             XElem.mk (nsTag TEI_NS (str "media"))
               [(str "url", add_folder_url filename dataset_id),
                (str "mimeType", str "text/csv"),
                (xmlId, sanitize_xml_id filename)] none none []]),
           pfe.2.2)
        else (none, pfe.2.2)
      | none => (none, pfe.2.2)
    else (none, [])
  | none => (none, [])

/-- The Zusatzdatei block of `create_tei_document` (lines 674-695). -/
def processZusatz (dataset_id zusatz_key : Str) (v : Option Str) :
    Option XElem × List Str :=
  match v with
  | some zusatz_val =>
    if zusatz_val ≠ [] then
      let pfe := parse_file_entry zusatz_val zusatz_key dataset_id
      match pfe.1 with
      | some filename =>
        if filename ≠ [] then
          let rs_type :=
            match pfe.2.1 with
            | some t =>
              if t ≠ [] ∧ hasSub (str "sample") (t.map Char.toLower) then
                str "sample"
              else str "literature"
            | none => str "literature"
          let mime_type :=
            if (str ".pdf").isSuffixOf filename then str "application/pdf"
            else str "application/octet-stream"
          (some (XElem.mk (nsTag TEI_NS (str "rs")) [(str "type", rs_type)]
            none none
            [add_title_elem (some (pyOr pfe.2.1 filename)) [] [] [],
             XElem.mk (nsTag TEI_NS (str "media"))
               [(str "url", add_folder_url filename dataset_id),
                (str "mimeType", mime_type),
                (xmlId, sanitize_xml_id filename)] none none []]),
           pfe.2.2)
        else (none, pfe.2.2)
      | none => (none, pfe.2.2)
    else (none, [])
  | none => (none, [])

/-- The Bild block of `create_tei_document` (lines 698-742), including
the graphic/media routing on the inferred MIME type. -/
def processBild (dataset_id bild_key : Str) (v : Option Str) :
    Option XElem × List Str :=
  match v with
  | some bild_val =>
    if bild_val ≠ [] then
      let pfe := parse_file_entry bild_val bild_key dataset_id
      match pfe.1 with
      | some filename =>
        if filename ≠ [] then
          let rs_type :=
            match pfe.2.1 with
            | some t =>
              if t ≠ [] ∧ (hasSub (str "map") (t.map Char.toLower) ∨
                  hasSub (str "karte") (t.map Char.toLower)) then str "map"
              else str "scan"
            | none => str "scan"
          let mime_type := imageMimeOfExt (bildExt filename)
          let mediaAttribs :=
            [(str "url", add_folder_url filename dataset_id),
             (str "mimeType", mime_type),
             (xmlId, sanitize_xml_id filename)]
          let child :=
            if (str "image/").isPrefixOf mime_type then
              XElem.mk (nsTag TEI_NS (str "graphic")) mediaAttribs none none []
            else
              XElem.mk (nsTag TEI_NS (str "media")) mediaAttribs none none []
          (some (XElem.mk (nsTag TEI_NS (str "rs")) [(str "type", rs_type)]
            none none
            [add_title_elem (some (pyOr pfe.2.1 filename)) [] [] [], child]),
           pfe.2.2)
        else (none, pfe.2.2)
      | none => (none, pfe.2.2)
    else (none, [])
  | none => (none, [])

/-- The language-name table of the langUsage block, falling back to the
uppercased code. -/
def langName (code : Str) : Str :=
  if code = str "sr" then str "Serbian"
  else if code = str "sq" then str "Albanian"
  else if code = str "en" then str "English"
  else if code = str "de" then str "German"
  else if code = str "hy" then str "Armenian"
  else if code = str "tr" then str "Turkish"
  else code.map Char.toUpper

/-- The `(\d{4})\.?\s*$` match attempt at the current position. -/
def yearEndMatch (s : Str) : Option Str :=
  match s with
  | a :: b :: c :: d :: rest =>
    if a.isDigit && b.isDigit && c.isDigit && d.isDigit then
      let rest2 := match rest with
        | '.' :: more => more
        | _ => rest
      if rest2.all Char.isWhitespace then some [a, b, c, d] else none
    else none
  | _ => none

/-- `re.search(r'(\d{4})\.?\s*$', citation_text)`: the first (leftmost)
position where a trailing four-digit year matches. -/
def citationYear : Str → Option Str
  | [] => none
  | c :: cs =>
    match yearEndMatch (c :: cs) with
    | some y => some y
    | none => citationYear cs

/-! ### Template Data and create_tei_document -/

/-- One series title extracted from the template (`text`, `xml:lang`,
`ref`; empty strings stand for absent/None values). -/
structure SeriesTitle where
  text : Str
  lang : Str
  ref : Str

/-- The project-director sub-record of Template Data. -/
structure PersonResp where
  forename : Str
  surname : Str
  resp : Str

/-- The research-team sub-record of Template Data. -/
structure TeamResp where
  name : Str
  ref : Str
  resp : Str

/-- The project-context reference of Template Data. -/
structure CtxRef where
  text : Str
  target : Str
  rtype : Str

/-- The Template Data dictionary built by `extract_template_data`: every
scalar key is optional (`dict.get` with a named default downstream), the
list keys default to empty. -/
structure TemplateData where
  publisher_name : Option Str
  publisher_corresp : Option Str
  authority_name : Option Str
  authority_corresp : Option Str
  distributor_name : Option Str
  distributor_ref : Option Str
  license_text : Option Str
  license_target : Option Str
  pub_place : Option Str
  funder_name : Option Str
  funder_ref : Option Str
  funder_num : Option Str
  series_titles : List SeriesTitle
  project_director : Option PersonResp
  research_team : Option TeamResp
  project_desc_paragraphs : List Str
  project_context_ref : Option CtxRef

/-- The empty Template Data (all keys absent): what
`extract_template_data` returns when the exemplar file is missing or
unparsable. -/
def emptyTemplate : TemplateData :=
  ⟨none, none, none, none, none, none, none, none, none, none, none, none,
   [], none, none, [], none⟩

/-- `convert_csv_to_tei.create_tei_document` (lines 417-876): the complete
TEI tree for one dataset record, with the warnings appended to the global
`conversion_warnings` list during construction, in order. -/
def create_tei_document (dataset : Record) (template_data : TemplateData) :
    XElem × List Str :=
  let dataset_title := rgetD dataset (str "Datensatz Titel") (str "Untitled Dataset")
  let dataset_id := rgetD dataset (str "Datensatz ID") (str "000")
  let citation_text := rgetD dataset (str "Zitierempfehlung") []
  let author_names := parse_citation_authors citation_text
  let title_stmt := XElem.mk (nsTag TEI_NS (str "titleStmt")) [] none none
    (add_title_elem (some (str "Nr. " ++ dataset_id ++ str ": " ++ dataset_title))
        [] [] [] ::
      citationEditors author_names ++
      [XElem.mk (nsTag TEI_NS (str "respStmt")) [(str "ana", str "marcrelator:mrk")]
        none none
        [create_tei_element (str "resp") (some (str "XML encoding")) [],
         persName_elem (str "Christian") (str "Steiner")],
       XElem.mk (nsTag TEI_NS (str "funder")) [(str "ana", str "marcrelator:fnd")]
        none none
        [create_tei_element (str "orgName")
          (some ((template_data.funder_name).getD (str "Austrian Science Fund (FWF)")))
          [(str "ref", (template_data.funder_ref).getD (str "https://www.fwf.ac.at/de/"))],
         create_tei_element (str "num")
          (some ((template_data.funder_num).getD (str "P 38285-G"))) []]])
  let year := str "2025"
  let pid := rgetD dataset (str "PID") (str "o:histdem." ++ dataset_id)
  let pub_stmt := XElem.mk (nsTag TEI_NS (str "publicationStmt")) [] none none
    [XElem.mk (nsTag TEI_NS (str "publisher")) [] none none
      [create_tei_element (str "orgName")
        (some ((template_data.publisher_name).getD
          (str "Institut für Geschichte, Universität Graz")))
        [(str "corresp", (template_data.publisher_corresp).getD
          (str "http://geschichte.uni-graz.at/"))]],
     XElem.mk (nsTag TEI_NS (str "authority")) [(str "ana", str "marcrelator:his")]
      none none
      [create_tei_element (str "orgName")
        (some ((template_data.authority_name).getD (str "Digital Humanities Craft OG")))
        [(str "corresp", (template_data.authority_corresp).getD (str "https://dhcraft.org"))]],
     XElem.mk (nsTag TEI_NS (str "authority")) [(str "ana", str "marcrelator:his")]
      none none
      [create_tei_element (str "orgName")
        (some (str "Institut für Digitale Geisteswissenschaften, Universität Graz"))
        [(str "ref", str "https://digital-humanities.uni-graz.at")]],
     XElem.mk (nsTag TEI_NS (str "distributor")) [(str "ana", str "marcrelator:rps")]
      none none
      [create_tei_element (str "orgName")
        (some ((template_data.distributor_name).getD
          (str "GAMS - Geisteswissenschaftliches Asset Management System")))
        [(str "ref", (template_data.distributor_ref).getD (str "https://gams.uni-graz.at"))]],
     XElem.mk (nsTag TEI_NS (str "availability")) [] none none
      [create_tei_element (str "licence")
        (some ((template_data.license_text).getD (str "Creative Commons BY-NC 4.0")))
        [(str "target", (template_data.license_target).getD
          (str "https://creativecommons.org/licenses/by-nc/4.0"))]],
     create_tei_element (str "date") (some year)
       [(str "when", year), (str "ana", str "dcterms:issued")],
     create_tei_element (str "pubPlace")
       (some ((template_data.pub_place).getD (str "Graz")))
       [(str "ana", str "marcrelator:pup")],
     create_tei_element (str "idno") (some pid) [(str "type", str "PID")]]
  let series_stmt := XElem.mk (nsTag TEI_NS (str "seriesStmt")) [] none none
    ((template_data.series_titles.map (fun td =>
        add_title_elem (some td.text) [] td.lang td.ref)) ++
     (match template_data.project_director with
      | some pdr =>
        [XElem.mk (nsTag TEI_NS (str "respStmt")) [(str "ana", str "marcrelator:pdr")]
          none none
          [create_tei_element (str "resp") (some pdr.resp) [],
           persName_elem pdr.forename pdr.surname]]
      | none => []) ++
     (match template_data.research_team with
      | some team =>
        [XElem.mk (nsTag TEI_NS (str "respStmt")) [(str "ana", str "marcrelator:rth")]
          none none
          [create_tei_element (str "resp") (some team.resp) [],
           create_tei_element (str "orgName") (some team.name)
             [(str "ref", team.ref)]]]
      | none => []))
  let year_val := rget dataset (str "Jahr")
  let date_from := rget dataset (str "Datum Von")
  let date_to := rget dataset (str "Datum Bis")
  let date_elem :=
    if optTruthy date_from && optTruthy date_to then
      create_tei_element (str "date")
        (some (date_from.getD [] ++ str "-" ++ date_to.getD []))
        [(str "from", date_from.getD []), (str "to", date_to.getD []),
         (str "ana", str "dcterms:created")]
    else if optTruthy year_val then
      create_tei_element (str "date") (some (year_val.getD []))
        [(str "when", year_val.getD []), (str "ana", str "dcterms:created")]
    else
      create_tei_element (str "date") (some (str "YEAR"))
        [(str "when", str "YEAR"), (str "ana", str "dcterms:created")]
  let country := rgetD dataset (str "Land") (str "COUNTRY")
  let country_qid0 := pyStrip (rgetD dataset (str "Land Wikidata") [])
  let country_qid :=
    if country_qid0 = [] then (get_wikidata_qid country).getD (str "None")
    else country_qid0
  let regionOpt := rget dataset (str "Region")
  let region_elems :=
    if optTruthy regionOpt then
      let region := regionOpt.getD []
      let region_qid0 := pyStrip (rgetD dataset (str "Region Wikidata") [])
      let region_qid : Option Str :=
        if region_qid0 = [] then get_wikidata_qid region else some region_qid0
      match region_qid with
      | some q =>
        [create_tei_element (str "region") (some region)
          [(str "ana", str "marcrelator:prp"), (str "ref", str "wd:" ++ q)]]
      | none =>
        [create_tei_element (str "region") (some region)
          [(str "ana", str "marcrelator:prp"), (str "ref", str "wd:QXXX")]]
    else []
  let source_bibl := XElem.mk (nsTag TEI_NS (str "bibl")) [] none none
    (date_elem ::
     create_tei_element (str "country") (some country)
       [(str "ana", str "marcrelator:prp"), (str "ref", str "wd:" ++ country_qid)] ::
     region_elems)
  let citation_bibls :=
    if citation_text ≠ [] then
      [XElem.mk (nsTag TEI_NS (str "bibl")) [(str "type", str "citation")] none none
        ((author_names.map (fun a => create_tei_element (str "author") (some a) [])) ++
         [add_title_elem (some dataset_title) (str "a") [] [],
          add_title_elem (some (str "Mosaic Historical Microdata File")) (str "s") [] [],
          (if hasSub (str "mosaic.ipums.org") citation_text then
            create_tei_element (str "publisher") (some (str "mosaic.ipums.org")) []
          else if hasSub (str "censusmosaic.org") citation_text then
            create_tei_element (str "publisher") (some (str "www.censusmosaic.org")) []
          else
            create_tei_element (str "publisher") (some (str "mosaic.ipums.org")) []),
          (match citationYear citation_text with
           | some y => create_tei_element (str "date") (some y) []
           | none => create_tei_element (str "date")
               (some (pyOr year_val (str "2024"))) []),
          add_mixed_content
            (XElem.mk (nsTag TEI_NS (str "rs"))
              [(str "type", str "citation_recommendation")] none none [])
            citation_text])]
    else []
  let codesRes := processCsvField dataset_id (str "CSV Codes") (str "codes")
    (str "Data with Codes") (rget dataset (str "CSV Codes"))
  let labelsRes := processCsvField dataset_id (str "CSV Labels") (str "labels")
    (str "Data with Labels") (rget dataset (str "CSV Labels"))
  let data_bibl := XElem.mk (nsTag TEI_NS (str "bibl")) [(str "type", str "data")]
    none none (codesRes.1.toList ++ labelsRes.1.toList)
  let zusatzRes := (numberedKeys (str "Zusatzdatei ") 10).map (fun key =>
    processZusatz dataset_id key (rget dataset key))
  let bildRes := (numberedKeys (str "Bild ") 5).map (fun key =>
    processBild dataset_id key (rget dataset key))
  let litElems := (numberedKeys (str "Literatur ") 4).filterMap (fun key =>
    match rget dataset key with
    | some lit_val =>
      if lit_val ≠ [] then
        some (XElem.mk (nsTag TEI_NS (str "rs")) [(str "type", str "literature")]
          none none [add_title_elem (some lit_val) [] [] []])
      else none
    | none => none)
  let additional_children :=
    (zusatzRes.filterMap (fun p => p.1)) ++ (bildRes.filterMap (fun p => p.1)) ++
      litElems
  let additional_bibls :=
    if additional_children.isEmpty then []
    else
      [XElem.mk (nsTag TEI_NS (str "bibl")) [(str "type", str "additional")]
        none none additional_children]
  let source_desc := XElem.mk (nsTag TEI_NS (str "sourceDesc")) [] none none
    (source_bibl :: citation_bibls ++ [data_bibl] ++ additional_bibls)
  let file_desc := XElem.mk (nsTag TEI_NS (str "fileDesc")) [] none none
    [title_stmt, pub_stmt, series_stmt, source_desc]
  let project_desc := XElem.mk (nsTag TEI_NS (str "projectDesc")) [] none none
    ((match template_data.project_context_ref with
      | some rd =>
        [XElem.mk (nsTag TEI_NS (str "ab")) [] none none
          [create_tei_element (str "ref") (some rd.text)
            [(str "target", rd.target), (str "type", rd.rtype)]]]
      | none => []) ++
     (template_data.project_desc_paragraphs.map (fun p =>
       create_tei_element (str "p") (some p) [])))
  let listPrefixDefElem := XElem.mk (nsTag TEI_NS (str "listPrefixDef")) [] none none
    [XElem.mk (nsTag TEI_NS (str "prefixDef"))
      [(str "ident", str "marcrelator"),
       (str "matchPattern", str "([a-z]+)"),
       (str "replacementPattern", str "http://id.loc.gov/vocabulary/relators/$1")]
      none none [create_tei_element (str "p") (some (str "Taxonomie Rollen MARC")) []],
     XElem.mk (nsTag TEI_NS (str "prefixDef"))
      [(str "ident", str "dcterms"),
       (str "matchPattern", str "([a-z]+)"),
       (str "replacementPattern", str "http://purl.org/dc/terms/$1")]
      none none [create_tei_element (str "p") (some (str "DCterms")) []],
     XElem.mk (nsTag TEI_NS (str "prefixDef"))
      [(str "ident", str "wd"),
       (str "matchPattern", str "(Q\\d+)"),
       (str "replacementPattern", str "https://www.wikidata.org/entity/$1")]
      none none [create_tei_element (str "p") (some (str "Wikidata")) []]]
  let encoding_desc := XElem.mk (nsTag TEI_NS (str "encodingDesc")) [] none none
    [project_desc, listPrefixDefElem]
  let lang_codes := rgetD dataset (str "Sprachcodes") (str "en")
  let lang_usage := XElem.mk (nsTag TEI_NS (str "langUsage")) [] none none
    ((lang_codes.splitOn ',').map (fun c =>
      create_tei_element (str "language") (some (langName (pyStrip c)))
        [(str "ident", pyStrip c)]))
  let kw_text := rgetD dataset (str "Schlagwörter") []
  let keywords := XElem.mk (nsTag TEI_NS (str "keywords")) [] none none
    [XElem.mk (nsTag TEI_NS (str "list")) [] none none
      ((kw_text.splitOn ',').filterMap (fun c =>
        if pyStrip c ≠ [] then
          some (XElem.mk (nsTag TEI_NS (str "item")) [] none none
            [create_tei_element (str "term") (some (pyStrip c)) []])
        else none))]
  let profile_desc := XElem.mk (nsTag TEI_NS (str "profileDesc")) [] none none
    [lang_usage,
     XElem.mk (nsTag TEI_NS (str "textClass")) [] none none [keywords]]
  let header := XElem.mk (nsTag TEI_NS (str "teiHeader")) [(xmlLang, str "en")]
    none none [file_desc, encoding_desc, profile_desc]
  let head_text := rgetD dataset (str "Überschrift")
    (country ++ str " " ++ (match year_val with | some y => y | none => str "None"))
  let description := rgetD dataset (str "Beschreibung") []
  let paras :=
    if description ≠ [] then
      (if hasSub (str "\n\n") description then pySplitStr (str "\n\n") description
       else [description]).filterMap (fun para =>
        if pyStrip para ≠ [] then
          some (create_tei_element (str "p") (some (pyStrip para)) [])
        else none)
    else [create_tei_element (str "p") (some (str "Description pending.")) []]
  let notes := rgetD dataset (str "Anmerkungen") []
  let body := XElem.mk (nsTag TEI_NS (str "body")) [] none none
    (create_tei_element (str "head") (some head_text) [] ::
      paras ++
      [create_tei_element (str "note")
        (some (if notes ≠ [] then notes else str "No additional notes.")) []])
  let text_elem := XElem.mk (nsTag TEI_NS (str "text")) [] none none [body]
  let warnings := codesRes.2 ++ labelsRes.2 ++
    (zusatzRes.map (fun p => p.2)).flatten ++ (bildRes.map (fun p => p.2)).flatten
  (XElem.mk (nsTag TEI_NS (str "TEI")) [] none none [header, text_elem], warnings)

/-- The per-dataset loop of `convert_csv_to_tei.main` (lines 909-930):
one output file name `<id>_tei.xml` and tree per dataset, the global
warning list accumulated across the loop; serialization and disk writes
are out of scope (black-box renderer). -/
def runConversionAux (template_data : TemplateData) :
    Nat → List Record → List (Str × XElem) × List Str
  | _, [] => ([], [])
  | i, d :: ds =>
    let dataset_id := rgetD d (str "Datensatz ID") (natStr (i + 1))
    let res := create_tei_document d template_data
    let rest := runConversionAux template_data (i + 1) ds
    ((dataset_id ++ str "_tei.xml", res.1) :: rest.1, res.2 ++ rest.2)

def runConversion (datasets : List Record) (template_data : TemplateData) :
    List (Str × XElem) × List Str :=
  runConversionAux template_data 0 datasets

/-! ### C4 and C5: determinism and totality of the synthesis loop -/

/-- C4: document synthesis is deterministic.  The embedding of
`create_tei_document` exposes every input the Python function reads: the
dataset record and the template data.  There is no clock input at all —
the one date not taken from the inputs is the string literal `'2025'` in
the source — so two runs on identical inputs produce identical trees (and
identical warning lists), with not even the permitted single
run-timestamp exception being needed. -/
theorem C4_synthesis_deterministic (d1 d2 : Record) (t1 t2 : TemplateData)
    (hd : d1 = d2) (ht : t1 = t2) :
    (create_tei_document d1 t1).1 = (create_tei_document d2 t2).1 ∧
    (create_tei_document d1 t1).2 = (create_tei_document d2 t2).2 := by
  subst hd
  subst ht
  exact ⟨rfl, rfl⟩

/-- Witness for C4: two runs on the empty record and empty template agree. -/
theorem C4_witness :
    (create_tei_document [] emptyTemplate).1 =
      (create_tei_document [] emptyTemplate).1 :=
  (C4_synthesis_deterministic [] [] emptyTemplate emptyTemplate rfl rfl).1

theorem runConversionAux_spec (template_data : TemplateData) :
    ∀ (ds : List Record) (i0 : Nat),
      ((runConversionAux template_data i0 ds).1.length = ds.length) ∧
      (∀ j d, ds[j]? = some d →
        (runConversionAux template_data i0 ds).1[j]? =
          some (rgetD d (str "Datensatz ID") (natStr (i0 + j + 1)) ++
              str "_tei.xml",
            (create_tei_document d template_data).1)) := by
  intro ds
  induction ds with
  | nil =>
    intro i0
    refine ⟨rfl, ?_⟩
    intro j d hj
    simp at hj
  | cons d0 rest ih =>
    intro i0
    have hunf : (runConversionAux template_data i0 (d0 :: rest)).1 =
        (rgetD d0 (str "Datensatz ID") (natStr (i0 + 1)) ++ str "_tei.xml",
         (create_tei_document d0 template_data).1) ::
          (runConversionAux template_data (i0 + 1) rest).1 := rfl
    constructor
    · rw [hunf]
      simp [(ih (i0 + 1)).1]
    · intro j d hj
      match j with
      | 0 =>
        rw [List.getElem?_cons_zero] at hj
        have hd : d0 = d := by injection hj
        subst hd
        rw [hunf, List.getElem?_cons_zero]
      | j + 1 =>
        rw [List.getElem?_cons_succ] at hj
        have he := (ih (i0 + 1)).2 j d hj
        rw [hunf, List.getElem?_cons_succ]
        have harith : i0 + 1 + j + 1 = i0 + (j + 1) + 1 := by omega
        rw [harith] at he
        exact he

/-- C5: the per-document loop of `main` is total and per-record: every
dataset record in the loop yields exactly one output document, and the
j-th output is a function of the j-th record (and the shared template)
alone, so no record's shape can halt processing of the others.  In the
embedding synthesis is a total function — the Python `create_tei_document`
raises no exception on string-valued records.  (The source `main` has no
per-document try/except; the spec's catch-and-report clause is vacuous
because no dataset shape raises; XML serialization is out of scope.) -/
theorem C5_loop_total (datasets : List Record) (template_data : TemplateData) :
    ((runConversion datasets template_data).1.length = datasets.length) ∧
    (∀ j d, datasets[j]? = some d →
      (runConversion datasets template_data).1[j]? =
        some (rgetD d (str "Datensatz ID") (natStr (j + 1)) ++ str "_tei.xml",
          (create_tei_document d template_data).1)) := by
  have h := runConversionAux_spec template_data datasets 0
  refine ⟨h.1, ?_⟩
  intro j d hj
  have := h.2 j d hj
  rwa [Nat.zero_add] at this

/-- Witness for C5 at a one-record input. -/
theorem C5_witness :
    (runConversion [([] : Record)] emptyTemplate).1[0]? =
      some (rgetD [] (str "Datensatz ID") (natStr 1) ++ str "_tei.xml",
        (create_tei_document [] emptyTemplate).1) :=
  (C5_loop_total [([] : Record)] emptyTemplate).2 0 [] (by decide)

/-! ### C6: MIME inference and graphic/media routing for Bild entries -/

/-- C6 counterexample: the Bild entry `"scan.tiff - A Scan"` has the
unknown extension `tiff`, yet its file node is a `graphic` node (the
`mime_map.get(ext, 'image/jpeg')` default makes every unknown extension an
image type), not the `media` node the claim requires for unknown types. -/
theorem C6_counterexample :
    ((processBild (str "147") (str "Bild 1")
        (some (str "scan.tiff - A Scan"))).1.map
      (fun e => e.children.map XElem.tag)) =
      some [nsTag TEI_NS (str "title"), nsTag TEI_NS (str "graphic")] ∧
    bildExt (str "scan.tiff") ∉
      [str "jpg", str "jpeg", str "png", str "pdf"] := by
  exact ⟨by decide, by decide⟩

theorem imageMime_prefix (ext : Str) (h : ext ≠ str "pdf") :
    (str "image/").isPrefixOf (imageMimeOfExt ext) = true := by
  rw [imageMimeOfExt]
  by_cases h1 : ext = str "jpg"
  · rw [if_pos h1]; decide
  · rw [if_neg h1]
    by_cases h2 : ext = str "jpeg"
    · rw [if_pos h2]; decide
    · rw [if_neg h2]
      by_cases h3 : ext = str "png"
      · rw [if_pos h3]; decide
      · rw [if_neg h3, if_neg h]; decide

/-- C6 (amended): for every Bild entry with a parsed filename, the MIME
type is inferred from the lowercased extension after the last `.` via
`{jpg, jpeg → image/jpeg, png → image/png, pdf → application/pdf}` with
default `image/jpeg` for unknown extensions, and the entry is routed to a
`graphic` node exactly when the MIME type starts with `image/` — that is,
when the extension is an image type OR unknown; only the known non-image
extension `pdf` yields a `media` node. -/
theorem C6_bild_routing (dataset_id bild_key val filename : Str)
    (title : Option Str) (warns : List Str)
    (hp : parse_file_entry val bild_key dataset_id = (some filename, title, warns))
    (hval : val ≠ []) (hfn : filename ≠ []) :
    ∃ e child, (processBild dataset_id bild_key (some val)).1 = some e ∧
      e.children.getLast? = some child ∧
      (bildExt filename = str "pdf" →
        child.tag = nsTag TEI_NS (str "media") ∧
        (str "mimeType", str "application/pdf") ∈ child.attribs) ∧
      (bildExt filename ≠ str "pdf" →
        child.tag = nsTag TEI_NS (str "graphic") ∧
        (str "mimeType", imageMimeOfExt (bildExt filename)) ∈ child.attribs ∧
        (str "image/").isPrefixOf (imageMimeOfExt (bildExt filename)) = true) := by
  simp only [processBild]
  rw [if_pos hval]
  simp only [hp]
  rw [if_pos hfn]
  by_cases hext : bildExt filename = str "pdf"
  · rw [hext]
    have hm : imageMimeOfExt (str "pdf") = str "application/pdf" := by decide
    rw [hm]
    have hpf : (str "image/").isPrefixOf (str "application/pdf") = false := by decide
    rw [hpf]
    simp only [Bool.false_eq_true, if_false]
    refine ⟨_, _, rfl, rfl, fun _ => ⟨rfl, by simp [XElem.attribs]⟩,
      fun hne => absurd rfl hne⟩
  · have hpf := imageMime_prefix (bildExt filename) hext
    rw [hpf]
    simp only [if_true]
    refine ⟨_, _, rfl, rfl, fun hpdf => absurd hpdf hext,
      fun _ => ⟨rfl, by simp [XElem.attribs], trivial⟩⟩

/-- Witness for C6 at the entry `"map.png - Karte"`. -/
theorem C6_witness :
    ∃ e child, (processBild (str "147") (str "Bild 1")
        (some (str "map.png - Karte"))).1 = some e ∧
      e.children.getLast? = some child ∧
      (bildExt (str "map.png") = str "pdf" →
        child.tag = nsTag TEI_NS (str "media") ∧
        (str "mimeType", str "application/pdf") ∈ child.attribs) ∧
      (bildExt (str "map.png") ≠ str "pdf" →
        child.tag = nsTag TEI_NS (str "graphic") ∧
        (str "mimeType", imageMimeOfExt (bildExt (str "map.png"))) ∈ child.attribs ∧
        (str "image/").isPrefixOf (imageMimeOfExt (bildExt (str "map.png"))) = true) :=
  C6_bild_routing (str "147") (str "Bild 1") (str "map.png - Karte")
    (str "map.png") (some (str "Karte")) [] (by decide) (by decide) (by decide)

/-! ### C8: editors derived from the citation -/

theorem dropLast_append_getLastD {α : Type} (d : α) :
    ∀ (l : List α), l ≠ [] → l.dropLast ++ [l.getLastD d] = l := by
  intro l
  induction l with
  | nil => intro h; exact absurd rfl h
  | cons a as ih =>
    intro _
    cases as with
    | nil => rfl
    | cons b bs =>
      have h2 := ih (by simp)
      show a :: ((b :: bs).dropLast ++ [(b :: bs).getLastD d]) = a :: (b :: bs)
      rw [h2]

theorem takeWhile_eq_self_sat {p : Char → Bool} :
    ∀ {l : Str}, (∀ x ∈ l, p x = true) → l.takeWhile p = l := by
  intro l
  induction l with
  | nil => intro _; rfl
  | cons a as ih =>
    intro h
    rw [List.takeWhile_cons, if_pos (h a (by simp)),
      ih (fun x hx => h x (by simp [hx]))]

/-- C8: the editor derivation.  The editor list is capped at three; an
empty parsed-author list yields exactly the one placeholder editor
FIRST/LAST; otherwise the first three parsed authors each yield an editor
unless the name has fewer than two whitespace tokens (skipped); an editor
splits its name into forename = all tokens but the last (space-joined)
and surname = the last token, together covering all tokens; and the
parsed author list comes from the clause before the first `.` (text up to
the first period, requiring at least one preceding character), or —
failing that — the clause before the first `*`, split on commas after
replacing `" and "`. -/
theorem C8_citation_editors (citation_text : Str) :
    ((citationEditors (parse_citation_authors citation_text)).length ≤ 3) ∧
    (parse_citation_authors citation_text = [] →
      citationEditors (parse_citation_authors citation_text) =
        [XElem.mk (nsTag TEI_NS (str "editor"))
          [(str "ana", str "marcrelator:edt")] none none
          [persName_elem (str "FIRST") (str "LAST")]]) ∧
    (parse_citation_authors citation_text ≠ [] →
      citationEditors (parse_citation_authors citation_text) =
        ((parse_citation_authors citation_text).take 3).filterMap editorOfName) ∧
    (∀ name, (pyWords (pyStrip name)).length ≤ 1 → editorOfName name = none) ∧
    (∀ name e, editorOfName name = some e →
      2 ≤ (pyWords (pyStrip name)).length ∧
      e.children = [persName_elem
        (List.intercalate (str " ") (pyWords (pyStrip name)).dropLast)
        ((pyWords (pyStrip name)).getLastD [])] ∧
      (pyWords (pyStrip name)).dropLast ++ [(pyWords (pyStrip name)).getLastD []] =
        pyWords (pyStrip name)) ∧
    (∀ pre post, citation_text = pre ++ '.' :: post → pre ≠ [] →
      ('.' : Char) ∉ pre →
      parse_citation_authors citation_text = splitAuthors pre) ∧
    (∀ pre post, citation_text = pre ++ '*' :: post → pre ≠ [] →
      ('*' : Char) ∉ pre →
      (citation_text.takeWhile (fun c => c ≠ '.') = [] ∨
        ('.' : Char) ∉ citation_text) →
      parse_citation_authors citation_text = splitAuthors pre) := by
  refine ⟨?_, ?_, ?_, ?_, ?_, ?_, ?_⟩
  · by_cases h : parse_citation_authors citation_text = []
    · rw [citationEditors, if_neg (by simp [h])]
      decide
    · rw [citationEditors, if_pos (by simpa using h)]
      exact Nat.le_trans (List.length_filterMap_le _ _) (List.length_take_le _ _)
  · intro h
    rw [citationEditors, if_neg (by simp [h])]
  · intro h
    rw [citationEditors, if_pos (by simpa using h)]
  · intro name h
    rw [editorOfName]
    rw [if_neg (by omega)]
  · intro name e h
    rw [editorOfName] at h
    by_cases hlen : 2 ≤ (pyWords (pyStrip name)).length
    · rw [if_pos hlen] at h
      have he := Option.some.inj h
      refine ⟨hlen, ?_, ?_⟩
      · rw [← he]
        rfl
      · apply dropLast_append_getLastD
        intro hnil
        rw [hnil] at hlen
        simp at hlen
    · rw [if_neg hlen] at h
      simp at h
  · intro pre post hdec hne hnodot
    have hall : ∀ x ∈ pre, (fun c => decide (c ≠ '.')) x = true := by
      intro x hx
      simp
      intro he
      rw [he] at hx
      exact hnodot hx
    have htw : citation_text.takeWhile (fun c => c ≠ '.') = pre := by
      rw [hdec, takeWhile_append_sat hall, List.takeWhile_cons]
      simp
    have hcne : citation_text ≠ [] := by
      rw [hdec]
      cases pre with
      | nil => exact absurd rfl hne
      | cons a as => simp
    have hlt : pre.length < citation_text.length := by
      rw [hdec]
      simp [List.length_append]
    have hfc : firstClause citation_text = some pre := by
      simp only [firstClause]
      rw [htw, if_pos ⟨hne, hlt⟩]
    simp only [parse_citation_authors]
    rw [if_neg hcne, hfc]
  · intro pre post hdec hne hnostar hfail
    have hfail2 : ¬(citation_text.takeWhile (fun c => c ≠ '.') ≠ [] ∧
        (citation_text.takeWhile (fun c => c ≠ '.')).length <
          citation_text.length) := by
      rcases hfail with h | h
      · intro hcon
        exact hcon.1 h
      · intro hcon
        have hself : citation_text.takeWhile (fun c => c ≠ '.') = citation_text := by
          apply takeWhile_eq_self_sat
          intro x hx
          simp
          intro he
          rw [he] at hx
          exact h hx
        rw [hself] at hcon
        omega
    have hall : ∀ x ∈ pre, (fun c => decide (c ≠ '*')) x = true := by
      intro x hx
      simp
      intro he
      rw [he] at hx
      exact hnostar hx
    have htw : citation_text.takeWhile (fun c => c ≠ '*') = pre := by
      rw [hdec, takeWhile_append_sat hall, List.takeWhile_cons]
      simp
    have hcne : citation_text ≠ [] := by
      rw [hdec]
      cases pre with
      | nil => exact absurd rfl hne
      | cons a as => simp
    have hlt : pre.length < citation_text.length := by
      rw [hdec]
      simp [List.length_append]
    have hfc : firstClause citation_text = some pre := by
      simp only [firstClause]
      rw [if_neg hfail2, htw, if_pos ⟨hne, hlt⟩]
    simp only [parse_citation_authors]
    rw [if_neg hcne, hfc]

/-- Witness for C8: a two-author citation yields the capped filterMap of
editors. -/
theorem C8_witness :
    citationEditors (parse_citation_authors (str "Alice Smith, Bob Jones. *Data*")) =
      ((parse_citation_authors (str "Alice Smith, Bob Jones. *Data*")).take 3).filterMap
        editorOfName :=
  (C8_citation_editors (str "Alice Smith, Bob Jones. *Data*")).2.2.1 (by decide)
